import Mathlib

/-!
Verification model of the jjs judge processor.

Shallow embedding of the per-job processor pipeline: the shared
command-result classifier, the compiler driver's response processing,
the test executor's response processing, the valuer-log transformer,
the protocol sender (judge-log emission), and the judge / do_judge
drivers.  Rust strings are modelled as lists of their UTF-8 bytes
(`List Nat`, each byte < 256); fallible Rust code returns `Except`;
Rust panics are modelled as dedicated error values or `Option.none`.
-/

namespace Judge

/-! ## Status kinds and codes (valuer_api) -/

inductive StatusKind where
  | queue
  | accepted
  | rejected
  | internalError
  | compilationError
  | notSet
  deriving DecidableEq, Repr

structure Status where
  kind : StatusKind
  code : String
  deriving DecidableEq, Repr

namespace status_codes

def TEST_PASSED : String := "TEST_PASSED"
def WRONG_ANSWER : String := "WRONG_ANSWER"
def PRESENTATION_ERROR : String := "PRESENTATION_ERROR"
def ACCEPTED : String := "ACCEPTED"
def PARTIAL_SOLUTION : String := "PARTIAL_SOLUTION"
def JUDGE_FAULT : String := "JUDGE_FAULT"
def COMPILER_FAILED : String := "COMPILER_FAILED"
def COMPILATION_TIMED_OUT : String := "COMPILATION_TIMED_OUT"
def TIME_LIMIT_EXCEEDED : String := "TIME_LIMIT_EXCEEDED"
def RUNTIME_ERROR : String := "RUNTIME_ERROR"

end status_codes

/-- Judge log kind (valuer_api::JudgeLogKind): a disclosure tier. -/
inductive JudgeLogKind where
  | contestant
  | full
  deriving DecidableEq, Repr

/-- `JudgeLogKind::list()`. -/
def JudgeLogKind.list : List JudgeLogKind := [.contestant, .full]

/-- pom::TestId is a NonZeroU32; we model the raw `.get()` value. -/
abbrev TestId := Nat

/-- `TestId::to_idx`: one-based id to zero-based index. -/
def TestId.to_idx (t : TestId) : Nat := t - 1

/-! ## Command results and the shared classifier (processor/src/lib.rs) -/

/-- invoker_api::invoke::Limits (time in milliseconds, memory in bytes). -/
structure Limits where
  memory : Nat
  time : Nat
  deriving DecidableEq, Repr

/-- invoker_api::invoke::CommandResult (cpu_time in nanoseconds). -/
structure CommandResult where
  spawn_error : Option String
  cpu_time : Option Nat
  memory : Option Nat
  exit_code : Int
  deriving DecidableEq, Repr

inductive CommandStatus where
  | startup
  | timeLimit
  | memLimit
  | runtime
  | ok
  deriving DecidableEq, Repr

/-- `describe_command_result` (processor/src/lib.rs:274-292). -/
def describe_command_result (limits : Limits) (data : CommandResult) : CommandStatus :=
  if data.spawn_error.isSome then .startup
  else if (match data.cpu_time with
           | some usage => decide (limits.time * 1000000 < usage)
           | none => false) then .timeLimit
  else if (match data.memory with
           | some usage => decide (limits.memory < usage)
           | none => false) then .memLimit
  else if data.exit_code ≠ 0 then .runtime
  else .ok

/-! ## base64 (base64 crate: standard alphabet, canonical padding) -/

/-- Character (as ASCII code) of a base64 sextet. -/
def b64Char (i : Nat) : Nat :=
  if i < 26 then 65 + i
  else if i < 52 then 97 + (i - 26)
  else if i < 62 then 48 + (i - 52)
  else if i = 62 then 43
  else 47

/-- Sextet of a base64 character (as ASCII code). -/
def b64Index (c : Nat) : Option Nat :=
  if 65 ≤ c ∧ c ≤ 90 then some (c - 65)
  else if 97 ≤ c ∧ c ≤ 122 then some (c - 97 + 26)
  else if 48 ≤ c ∧ c ≤ 57 then some (c - 48 + 52)
  else if c = 43 then some 62
  else if c = 47 then some 63
  else none

/-- `base64::encode`: bytes to ASCII codes of the base64 text. -/
def base64Encode : List Nat → List Nat
  | [] => []
  | [a] => [b64Char (a / 4), b64Char (a % 4 * 16), 61, 61]
  | [a, b] => [b64Char (a / 4), b64Char (a % 4 * 16 + b / 16), b64Char (b % 16 * 4), 61]
  | a :: b :: c :: rest =>
      b64Char (a / 4) :: b64Char (a % 4 * 16 + b / 16) ::
      b64Char (b % 16 * 4 + c / 64) :: b64Char (c % 64) :: base64Encode rest

/-- `base64::decode` (61 is the pad character `=`): groups of four
characters; a final group may carry one or two pad characters. -/
def base64Decode : List Nat → Option (List Nat)
  | [] => some []
  | c1 :: c2 :: c3 :: c4 :: rest =>
      match b64Index c1, b64Index c2 with
      | some s1, some s2 =>
        if c3 = 61 ∧ c4 = 61 ∧ rest = [] then some [s1 * 4 + s2 / 16]
        else
          match b64Index c3 with
          | some s3 =>
            if c4 = 61 ∧ rest = [] then
              some [s1 * 4 + s2 / 16, s2 % 16 * 16 + s3 / 4]
            else
              match b64Index c4, base64Decode rest with
              | some s4, some tail =>
                  some ((s1 * 4 + s2 / 16) :: (s2 % 16 * 16 + s3 / 4) ::
                        (s3 % 4 * 64 + s4) :: tail)
              | _, _ => none
          | none => none
      | _, _ => none
  | _ => none

theorem b64Index_b64Char : ∀ i < 64, b64Index (b64Char i) = some i := by decide

theorem b64Char_ne_pad : ∀ i < 64, b64Char i ≠ 61 := by decide

theorem base64_roundtrip : ∀ l : List Nat, (∀ b ∈ l, b < 256) →
    base64Decode (base64Encode l) = some l
  | [], _ => rfl
  | [a], h => by
    have ha : a < 256 := h a (by simp)
    have h1 : a / 4 < 64 := by omega
    have h2 : a % 4 * 16 < 64 := by omega
    simp only [base64Encode, base64Decode, b64Index_b64Char _ h1, b64Index_b64Char _ h2]
    rw [if_pos (by simp)]
    simp only [Option.some.injEq, List.cons.injEq, and_true]
    omega
  | [a, b], h => by
    have ha : a < 256 := h a (by simp)
    have hb : b < 256 := h b (by simp)
    have h1 : a / 4 < 64 := by omega
    have h2 : a % 4 * 16 + b / 16 < 64 := by omega
    have h3 : b % 16 * 4 < 64 := by omega
    simp only [base64Encode, base64Decode, b64Index_b64Char _ h1, b64Index_b64Char _ h2,
      b64Index_b64Char _ h3]
    rw [if_neg (fun hcon => b64Char_ne_pad _ h3 hcon.1)]
    rw [if_pos (by simp)]
    simp only [Option.some.injEq, List.cons.injEq, and_true]
    omega
  | a :: b :: c :: rest, h => by
    have ha : a < 256 := h a (by simp)
    have hb : b < 256 := h b (by simp)
    have hc : c < 256 := h c (by simp)
    have h1 : a / 4 < 64 := by omega
    have h2 : a % 4 * 16 + b / 16 < 64 := by omega
    have h3 : b % 16 * 4 + c / 64 < 64 := by omega
    have h4 : c % 64 < 64 := by omega
    have ih : base64Decode (base64Encode rest) = some rest :=
      base64_roundtrip rest (fun x hx => h x (by simp [hx]))
    show base64Decode (b64Char (a / 4) :: b64Char (a % 4 * 16 + b / 16) ::
      b64Char (b % 16 * 4 + c / 64) :: b64Char (c % 64) :: base64Encode rest) = _
    simp only [base64Decode, b64Index_b64Char _ h1, b64Index_b64Char _ h2,
      b64Index_b64Char _ h3, b64Index_b64Char _ h4]
    rw [if_neg (fun hcon => b64Char_ne_pad _ h3 hcon.1)]
    rw [if_neg (fun hcon => b64Char_ne_pad _ h4 hcon.1)]
    rw [ih]
    simp only [Option.some.injEq, List.cons.injEq, and_true]
    omega

/-! ## UTF-8 validation and lossy decoding (Rust `String::from_utf8`,
`String::from_utf8_lossy`) -/

/-- The UTF-8 replacement character U+FFFD, as bytes. -/
def replacementBytes : List Nat := [0xEF, 0xBF, 0xBD]

/-- Continuation byte: `0x80..=0xBF`. -/
def isCont (b : Nat) : Bool := 0x80 <= b && b < 0xC0

/-- Valid second byte of a 3- or 4-byte sequence with lead `b0`. -/
def validSecond (b0 b1 : Nat) : Bool :=
  if b0 = 0xE0 then 0xA0 <= b1 && b1 < 0xC0
  else if b0 = 0xED then 0x80 <= b1 && b1 < 0xA0
  else if b0 = 0xF0 then 0x90 <= b1 && b1 < 0xC0
  else if b0 = 0xF4 then 0x80 <= b1 && b1 < 0x90
  else isCont b1

/-- One step of UTF-8 decoding: whether the sequence at the front is
valid, and how many bytes it spans.  On an invalid sequence the span is
the maximal valid prefix (at least one byte), as in the Rust
`Utf8Chunks`. -/
def utf8StepLen : List Nat → Bool × Nat
  | [] => (true, 0)
  | b0 :: rest =>
    if b0 < 0x80 then (true, 1)
    else if b0 < 0xC2 then (false, 1)
    else if b0 < 0xE0 then
      match rest with
      | b1 :: _ => if isCont b1 then (true, 2) else (false, 1)
      | [] => (false, 1)
    else if b0 < 0xF0 then
      match rest with
      | b1 :: rest1 =>
        if validSecond b0 b1 then
          match rest1 with
          | b2 :: _ => if isCont b2 then (true, 3) else (false, 2)
          | [] => (false, 2)
        else (false, 1)
      | [] => (false, 1)
    else if b0 < 0xF5 then
      match rest with
      | b1 :: rest1 =>
        if validSecond b0 b1 then
          match rest1 with
          | b2 :: rest2 =>
            if isCont b2 then
              match rest2 with
              | b3 :: _ => if isCont b3 then (true, 4) else (false, 3)
              | [] => (false, 3)
            else (false, 2)
          | [] => (false, 2)
        else (false, 1)
      | [] => (false, 1)
    else (false, 1)

/-- Fuelled driver for the lossy decoder: emit the valid sequence, or
one replacement character per invalid sequence.  Each step consumes at
least one input byte, so fuel = input length is always enough. -/
def utf8LossyAux : Nat → List Nat → List Nat
  | 0, _ => []
  | _ + 1, [] => []
  | fuel + 1, b0 :: rest =>
      let s := utf8StepLen (b0 :: rest)
      (if s.1 then (b0 :: rest).take s.2 else replacementBytes) ++
        utf8LossyAux fuel ((b0 :: rest).drop s.2)

/-- Bytes of `String::from_utf8_lossy(v)`. -/
def utf8Lossy (l : List Nat) : List Nat := utf8LossyAux l.length l

def validUtf8Aux : Nat → List Nat → Bool
  | 0, l => l.isEmpty
  | _ + 1, [] => true
  | fuel + 1, b0 :: rest =>
      let s := utf8StepLen (b0 :: rest)
      s.1 && validUtf8Aux fuel ((b0 :: rest).drop s.2)

/-- Whether `String::from_utf8(v)` succeeds. -/
def validUtf8 (l : List Nat) : Bool := validUtf8Aux l.length l

theorem utf8StepLen_pos (b : Nat) (r : List Nat) :
    1 <= (utf8StepLen (b :: r)).2 := by
  simp only [utf8StepLen]
  repeat' split
  all_goals simp

theorem utf8LossyAux_lt (fuel : Nat) (l : List Nat) (hl : ∀ x ∈ l, x < 256) :
    ∀ x ∈ utf8LossyAux fuel l, x < 256 := by
  induction fuel generalizing l with
  | zero => simp [utf8LossyAux]
  | succ n ih =>
    match l with
    | [] => simp [utf8LossyAux]
    | b0 :: rest =>
      simp only [utf8LossyAux, List.mem_append]
      intro x hx
      rcases hx with hx | hx
      · split at hx
        · exact hl x (List.mem_of_mem_take hx)
        · simp [replacementBytes] at hx
          omega
      · exact ih _ (fun y hy => hl y (List.mem_of_mem_drop hy)) x hx

/-- Every byte of a lossy-decoded byte string is a byte. -/
theorem utf8Lossy_lt (l : List Nat) (hl : ∀ x ∈ l, x < 256) :
    ∀ x ∈ utf8Lossy l, x < 256 :=
  utf8LossyAux_lt l.length l hl

theorem utf8Aux_valid_id (fuel : Nat) (l : List Nat) (hf : l.length <= fuel)
    (hv : validUtf8Aux fuel l = true) : utf8LossyAux fuel l = l := by
  induction fuel generalizing l with
  | zero =>
    match l with
    | [] => rfl
    | _ :: _ => simp at hf
  | succ n ih =>
    match l with
    | [] => rfl
    | b0 :: rest =>
      simp only [validUtf8Aux, Bool.and_eq_true] at hv
      simp only [utf8LossyAux, hv.1, if_pos]
      have hpos := utf8StepLen_pos b0 rest
      have hlen : ((b0 :: rest).drop (utf8StepLen (b0 :: rest)).2).length <= n := by
        simp [List.length_drop]
        simp at hf
        omega
      rw [ih _ hlen hv.2, List.take_append_drop]

/-- On valid UTF-8, lossy decoding is the identity. -/
theorem utf8Lossy_valid_id (l : List Nat) (hv : validUtf8 l = true) :
    utf8Lossy l = l :=
  utf8Aux_valid_id l.length l (le_refl _) hv

/-! ## Problem and toolchain data (pom, toolchain_loader) -/

inductive FileRefRoot where
  | problem
  | root
  deriving DecidableEq, Repr

/-- pom::FileRef, resolved against the problem assets dir or `/`. -/
structure FileRef where
  root : FileRefRoot
  path : String
  deriving DecidableEq, Repr

/-- pom::Test (a test spec of the problem manifest). -/
structure TestSpec where
  path : FileRef
  correct : Option FileRef
  group : String
  limits : Limits
  deriving DecidableEq, Repr

/-- pom::Problem (fields not consumed by the modelled operations —
valuer config, problem name — are omitted). -/
structure Problem where
  tests : List TestSpec
  checker_exe : FileRef
  checker_cmd : List String
  deriving DecidableEq, Repr

/-- toolchain_loader::Toolchain: `spec.limits` flattened, since the
compiler driver only reads the limit fields and the image. -/
structure Toolchain where
  image : String
  limits : Limits
  deriving DecidableEq, Repr

/-! ## Test executor (processor/src/exec_test.rs) -/

/-- checker_proto::Outcome: the four checker decisions matched by
`map_checker_outcome_to_status` (the module file itself is not under
src/, but its constructors appear in exec_test.rs). -/
inductive CheckerOutcome where
  | ok
  | wrongAnswer
  | presentationError
  | badChecker
  deriving DecidableEq, Repr

/-- checker_proto::Output. -/
structure CheckerOutput where
  outcome : CheckerOutcome
  deriving DecidableEq, Repr

/-- `map_checker_outcome_to_status` (exec_test.rs:35-54). -/
def map_checker_outcome_to_status (out : CheckerOutput) : Status :=
  match out.outcome with
  | .ok => ⟨.accepted, status_codes.TEST_PASSED⟩
  | .badChecker => ⟨.internalError, status_codes.JUDGE_FAULT⟩
  | .presentationError => ⟨.rejected, status_codes.PRESENTATION_ERROR⟩
  | .wrongAnswer => ⟨.rejected, status_codes.WRONG_ANSWER⟩

structure ResourceUsage where
  memory : Option Nat
  time : Option Nat
  deriving DecidableEq, Repr

/-- exec_test::ExecOutcome.  `stdout`/`stderr` hold the bytes of the
Rust `String` (always valid UTF-8, produced by `from_utf8_lossy`). -/
structure ExecOutcome where
  status : Status
  resource_usage : ResourceUsage
  stdout : List Nat
  stderr : List Nat
  deriving DecidableEq, Repr

/-- `make_return_value_for_judge_fault` (exec_test.rs:429-439). -/
def make_return_value_for_judge_fault : ExecOutcome :=
  { status := ⟨.internalError, status_codes.JUDGE_FAULT⟩
    resource_usage := ⟨none, none⟩
    stdout := []
    stderr := [] }

/-- The data `exec` extracts from a well-formed invoker response: the
solution and checker `ExecuteCommand` results and the requested output
blobs (exec_test.rs:441-479). -/
structure ExecResponse where
  solution_result : CommandResult
  solution_stdout : List Nat
  solution_stderr : List Nat
  checker_result : CommandResult
  checker_decision : List Nat
  deriving DecidableEq, Repr

/-- The guarded test lookup at the top of `exec`
(exec_test.rs:399-402): out-of-range ids yield an error, not a panic. -/
def exec_lookup_test (problem : Problem) (test_id : TestId) : Except String TestSpec :=
  match problem.tests.get? test_id.to_idx with
  | some t => .ok t
  | none => .error "unknown test"

/-- Response processing of `exec` (exec_test.rs:429-508).  The checker
decision parser lives in exec_test/checker_proto.rs (not under src/),
so it is a parameter; `exec` feeds it the decision only when the bytes
are valid UTF-8. -/
def exec_process_response (parse : List Nat → Except String CheckerOutput)
    (resp : ExecResponse) : ExecOutcome :=
  if resp.checker_result.exit_code ≠ 0 then make_return_value_for_judge_fault
  else if validUtf8 resp.checker_decision then
    match parse resp.checker_decision with
    | .error _ => make_return_value_for_judge_fault
    | .ok parsed_out =>
        { status := map_checker_outcome_to_status parsed_out
          resource_usage := ⟨resp.solution_result.memory, resp.solution_result.cpu_time⟩
          stdout := utf8Lossy resp.solution_stdout
          stderr := utf8Lossy resp.solution_stderr }
  else make_return_value_for_judge_fault

/-! ## Compiler driver (processor/src/compile.rs) -/

structure BuiltRun where
  binary : List Nat
  deriving DecidableEq, Repr

instance exceptDecEq {ε α : Type} [DecidableEq ε] [DecidableEq α] :
    DecidableEq (Except ε α)
  | .ok a, .ok b =>
      if h : a = b then .isTrue (by rw [h]) else .isFalse (by simp [h])
  | .error a, .error b =>
      if h : a = b then .isTrue (by rw [h]) else .isFalse (by simp [h])
  | .ok _, .error _ => .isFalse (by simp)
  | .error _, .ok _ => .isFalse (by simp)

/-- compile::BuildOutcome (the `Option` used in Rust only for moving
out of the struct is dropped). -/
structure BuildOutcome where
  result : Except Status BuiltRun
  log : List Nat
  deriving DecidableEq, Repr

/-- Per-build-command data of the invoker response: the
`ExecuteCommand` action result and the two requested output blobs. -/
structure StepData where
  result : CommandResult
  stdout : List Nat
  stderr : List Nat
  deriving DecidableEq, Repr

/-- The compile invocation response, with one entry per build command
(in order) and the `"artifact"` output if present. -/
structure CompileResponse where
  steps : List StepData
  artifact : Option (List Nat)
  deriving DecidableEq, Repr

def strBytes (s : String) : List Nat := s.data.map Char.toNat

/-- The framed compile-log segment appended for step `i`
(compile.rs:216-220): each delimiter line ends in a newline, the
payloads are appended UTF-8-lossily with no added newline. -/
def stepFrame (i : Nat) (stdout stderr : List Nat) : List Nat :=
  strBytes ("------ step " ++ toString i ++ " ------\n") ++
  strBytes "--- stdout ---\n" ++ utf8Lossy stdout ++
  strBytes "--- stderr ---\n" ++ utf8Lossy stderr

/-- The status code of a failed build command (compile.rs:222-229);
`none` for `Ok`. -/
def compileStatusCode : CommandStatus → Option String
  | .memLimit => some status_codes.COMPILER_FAILED
  | .startup => some status_codes.COMPILER_FAILED
  | .runtime => some status_codes.COMPILER_FAILED
  | .timeLimit => some status_codes.COMPILATION_TIMED_OUT
  | .ok => none

/-- The per-step loop of `compile` after the response returns
(compile.rs:204-237): accumulate framed segments, stop at the first
step whose classification is not `Ok`. -/
def compileLoop (limits : Limits) : Nat → List StepData → List Nat × Option Status
  | _, [] => ([], none)
  | i, s :: rest =>
    let log := stepFrame i s.stdout s.stderr
    match compileStatusCode (describe_command_result limits s.result) with
    | some code => (log, some ⟨.compilationError, code⟩)
    | none =>
      let r := compileLoop limits (i + 1) rest
      (log ++ r.1, r.2)

/-- Response processing of `compile` (compile.rs:202-246). -/
def compile_process_response (limits : Limits) (resp : CompileResponse) :
    Except String BuildOutcome :=
  match compileLoop limits 0 resp.steps with
  | (log, some status) => .ok ⟨.error status, log⟩
  | (log, none) =>
    match resp.artifact with
    | some binary => .ok ⟨.ok ⟨binary⟩, log⟩
    | none => .error "failed to export compiled binary"

/-! ## Judge log types (valuer_api, judge_apis::judge_log) -/

/-- valuer_api::TestVisibleComponents (a bitflags set), one Boolean per
flag. -/
structure TestVisibleComponents where
  status : Bool
  test_data : Bool
  output : Bool
  answer : Bool
  resource_usage : Bool
  deriving DecidableEq, Repr

/-- valuer_api::JudgeLogTestRow: a test row of the valuer log. -/
structure ValuerTestRow where
  test_id : TestId
  status : Status
  components : TestVisibleComponents
  deriving DecidableEq, Repr

/-- valuer_api::JudgeLogSubtaskRow. -/
structure ValuerSubtaskRow where
  subtask_id : Nat
  score : Nat
  deriving DecidableEq, Repr

/-- valuer_api::JudgeLog: the valuer-produced judge log. -/
structure ValuerJudgeLog where
  kind : JudgeLogKind
  tests : List ValuerTestRow
  subtasks : List ValuerSubtaskRow
  score : Nat
  is_full : Bool
  deriving DecidableEq, Repr

/-- judge_apis::judge_log::JudgeLogTestRow (persistent).  Payload
fields hold base64 text as ASCII codes. -/
structure JudgeLogTestRow where
  test_id : TestId
  status : Option Status
  test_stdin : Option (List Nat)
  test_stdout : Option (List Nat)
  test_stderr : Option (List Nat)
  test_answer : Option (List Nat)
  time_usage : Option Nat
  memory_usage : Option Nat
  deriving DecidableEq, Repr

/-- judge_apis::judge_log::JudgeLogSubtaskRow (persistent). -/
structure JudgeLogSubtaskRow where
  subtask_id : Nat
  score : Option Nat
  deriving DecidableEq, Repr

/-- judge_apis::judge_log::JudgeLog (persistent). -/
structure JudgeLog where
  kind : JudgeLogKind
  tests : List JudgeLogTestRow
  subtasks : List JudgeLogSubtaskRow
  compile_log : List Nat
  score : Nat
  is_full : Bool
  status : Status
  deriving DecidableEq, Repr

/-! ## Log transformer (processor/src/transform_judge_log.rs) -/

/-- Failure modes of `transform`: the unguarded `problem.tests[...]`
index panic, or a failed asset read (an `anyhow` error in Rust). -/
inductive TransformError where
  | panicIndex
  | readFailed (what : String)
  deriving DecidableEq, Repr

/-- `test_results.iter().find(...)` (transform_judge_log.rs:40-43):
first matching execution outcome. -/
def find_outcome (test_results : List (TestId × ExecOutcome)) (t : TestId) :
    Option ExecOutcome :=
  (test_results.find? (fun p => p.1 == t)).map Prod.snd

/-- The `resource_usage_by_test` HashMap (transform_judge_log.rs:15-21):
repeated inserts keep the last occurrence. -/
def resource_usage_by_test (test_results : List (TestId × ExecOutcome)) (t : TestId) :
    Option ResourceUsage :=
  ((test_results.filter (fun p => p.1 == t)).getLast?).map
    (fun p => p.2.resource_usage)

/-- `export_test` (transform_judge_log.rs:73-133).  `readAsset` models
resolving a FileRef against the assets dir and reading the file. -/
def export_test (readAsset : FileRef → Option (List Nat)) (problem : Problem)
    (ru_by_test : TestId → Option ResourceUsage)
    (item : ValuerTestRow) (exec_outcome : Option ExecOutcome) :
    Except TransformError JudgeLogTestRow :=
  let new_item : JudgeLogTestRow :=
    { test_id := item.test_id, status := none, test_stdin := none,
      test_stdout := none, test_stderr := none, test_answer := none,
      time_usage := none, memory_usage := none }
  let new_item :=
    if item.components.status then { new_item with status := some item.status }
    else new_item
  match exec_outcome with
  | none => .ok new_item
  | some eo =>
    match (if item.components.test_data then
             match problem.tests.get? item.test_id.to_idx with
             | none => .error TransformError.panicIndex
             | some t =>
               match readAsset t.path with
               | none => .error (TransformError.readFailed "failed to read test data")
               | some test_data =>
                   .ok { new_item with test_stdin := some (base64Encode test_data) }
           else .ok new_item : Except TransformError JudgeLogTestRow) with
    | .error e => .error e
    | .ok r1 =>
      let r2 :=
        if item.components.output then
          { r1 with test_stdout := some (base64Encode eo.stdout),
                    test_stderr := some (base64Encode eo.stderr) }
        else r1
      match (if item.components.answer then
               match problem.tests.get? item.test_id.to_idx with
               | none => .error TransformError.panicIndex
               | some t =>
                 match t.correct with
                 | some answer_ref =>
                   match readAsset answer_ref with
                   | none => .error (TransformError.readFailed "failed to read correct answer")
                   | some answer =>
                       .ok { r2 with test_answer := some (base64Encode answer) }
                 | none => .ok r2
             else .ok r2 : Except TransformError JudgeLogTestRow) with
      | .error e => .error e
      | .ok r3 =>
        .ok (match ru_by_test item.test_id with
             | some ru =>
               if item.components.resource_usage then
                 { r3 with memory_usage := ru.memory, time_usage := ru.time }
               else r3
             | none => r3)

/-- The per-row loop of `transform` (transform_judge_log.rs:39-53). -/
def export_all (readAsset : FileRef → Option (List Nat)) (problem : Problem)
    (test_results : List (TestId × ExecOutcome)) :
    List ValuerTestRow → Except TransformError (List JudgeLogTestRow)
  | [] => .ok []
  | item :: rest =>
    match export_test readAsset problem (resource_usage_by_test test_results)
        item (find_outcome test_results item.test_id) with
    | .error e => .error e
    | .ok r =>
      match export_all readAsset problem test_results rest with
      | .error e => .error e
      | .ok rs => .ok (r :: rs)

/-- `tests.sort_by_key(|a| a.test_id)`: comparison of test rows. -/
def testRowLe (a b : JudgeLogTestRow) : Prop := a.test_id ≤ b.test_id

/-- `subtasks.sort_by_key(|a| a.subtask_id.0)`: comparison of subtask
rows. -/
def subtaskRowLe (a b : JudgeLogSubtaskRow) : Prop := a.subtask_id ≤ b.subtask_id

instance : DecidableRel testRowLe := fun a b => Nat.decLe a.test_id b.test_id

instance : DecidableRel subtaskRowLe := fun a b => Nat.decLe a.subtask_id b.subtask_id

instance : IsTotal JudgeLogTestRow testRowLe :=
  ⟨fun a b => Nat.le_total a.test_id b.test_id⟩

instance : IsTrans JudgeLogTestRow testRowLe :=
  ⟨fun _ _ _ h1 h2 => Nat.le_trans h1 h2⟩

instance : IsTotal JudgeLogSubtaskRow subtaskRowLe :=
  ⟨fun a b => Nat.le_total a.subtask_id b.subtask_id⟩

instance : IsTrans JudgeLogSubtaskRow subtaskRowLe :=
  ⟨fun _ _ _ h1 h2 => Nat.le_trans h1 h2⟩

/-- `transform` (transform_judge_log.rs:8-71): valuer judge log to
persistent judge log.  The sorts are Rust\'s stable `sort_by_key`,
modelled by insertion sort. -/
def transform (readAsset : FileRef → Option (List Nat)) (valuer_log : ValuerJudgeLog)
    (compile_result : BuildOutcome) (test_results : List (TestId × ExecOutcome))
    (problem : Problem) : Except TransformError JudgeLog :=
  let status : Status :=
    if valuer_log.is_full then ⟨.accepted, status_codes.ACCEPTED⟩
    else ⟨.rejected, status_codes.PARTIAL_SOLUTION⟩
  match export_all readAsset problem test_results valuer_log.tests with
  | .error e => .error e
  | .ok rows =>
    .ok { kind := valuer_log.kind
          tests := List.insertionSort testRowLe rows
          subtasks := List.insertionSort subtaskRowLe
            (valuer_log.subtasks.map (fun it => ⟨it.subtask_id, some it.score⟩))
          compile_log := compile_result.log
          score := valuer_log.score
          is_full := false
          status := status }

/-! ## Events and the protocol sender (processor/src/lib.rs) -/

inductive Event where
  | logCreated (log : JudgeLog)
  | liveTest (test_id : Nat)
  | liveScore (score : Nat)
  deriving DecidableEq, Repr

/-- ProtocolSender state: the `sent` vector of kinds emitted so far. -/
structure ProtocolSenderState where
  sent : List JudgeLogKind
  deriving DecidableEq, Repr

def senderInit : ProtocolSenderState := ⟨[]⟩

/-- The fake log `send_fake_logs` builds for one kind (lib.rs:322-330). -/
def fakeLog (kind : JudgeLogKind) (status : Status) (compile_log : List Nat) :
    JudgeLog :=
  { kind := kind, tests := [], subtasks := [], compile_log := compile_log,
    score := 0, is_full := false, status := status }

/-- `ProtocolSender::send_log` (lib.rs:335-349); `none` models the
"bug: log of kind sent twice" panic. -/
def send_log (st : ProtocolSenderState) (log : JudgeLog) :
    Option (ProtocolSenderState × Event) :=
  if log.kind ∈ st.sent then none
  else some (⟨st.sent ++ [log.kind]⟩, .logCreated log)

/-- `ProtocolSender::send_fake_logs` (lib.rs:316-333): for each kind in
`JudgeLogKind::list()` not sent yet, send a fake log.  The inner
`send_log` call is inlined — its duplicate-kind panic is unreachable
behind the `contains` guard. -/
def send_fake_logs_aux (status : Status) (compile_log : List Nat) :
    List JudgeLogKind → ProtocolSenderState → ProtocolSenderState × List Event
  | [], st => (st, [])
  | kind :: kinds, st =>
    if kind ∈ st.sent then send_fake_logs_aux status compile_log kinds st
    else
      let st1 : ProtocolSenderState := ⟨st.sent ++ [kind]⟩
      let r := send_fake_logs_aux status compile_log kinds st1
      (r.1, Event.logCreated (fakeLog kind status compile_log) :: r.2)

def send_fake_logs (st : ProtocolSenderState) (status : Status)
    (compile_log : List Nat) : ProtocolSenderState × List Event :=
  send_fake_logs_aux status compile_log JudgeLogKind.list st

/-- A call into the protocol sender.  Every judge-log emission on every
path of the processor (normal, compile-failure, fault, fake mode) goes
through one of these two methods. -/
inductive SenderOp where
  | sendLog (log : JudgeLog)
  | sendFakeLogs (status : Status) (compile_log : List Nat)

/-- Run a sequence of sender calls; `none` models a panic. -/
def runOps : List SenderOp → ProtocolSenderState →
    Option (ProtocolSenderState × List Event)
  | [], st => some (st, [])
  | .sendLog log :: ops, st =>
    match send_log st log with
    | none => none
    | some (st1, ev) =>
      match runOps ops st1 with
      | none => none
      | some (st2, evs) => some (st2, ev :: evs)
  | .sendFakeLogs status clog :: ops, st =>
    let r := send_fake_logs st status clog
    match runOps ops r.1 with
    | none => none
    | some (st2, evs) => some (st2, r.2 ++ evs)

/-- The kinds carried by the LogCreated events of a trace, in order. -/
def logKinds (evs : List Event) : List JudgeLogKind :=
  evs.filterMap (fun e => match e with
    | .logCreated log => some log.kind
    | _ => none)

/-! ## The judge driver (processor/src/lib.rs: judge, do_judge) -/

/-- valuer_api::ValuerResponse. -/
inductive ValuerResponse where
  | test (test_id : TestId) (live : Bool)
  | judgeLog (log : ValuerJudgeLog)
  | liveScore (score : Nat)
  | finish

/-- The environment `do_judge` runs against: the outcomes of its
external calls.  `valuer_init` covers spawning the valuer client and
writing the problem info; `valuer_polls` the successive `poll()`
results (an exhausted list models a poll that never returns, which in
Rust surfaces as the read-timeout error); `exec_test` the per-test
executor including its invoker call; `readAsset` resolving and reading
problem assets. -/
structure JudgeEnv where
  find_problem : Except String (Option Problem)
  resolve_toolchain : Except String Toolchain
  compile_response : Except String CompileResponse
  valuer_init : Except String Unit
  valuer_polls : List (Except String ValuerResponse)
  exec_test : TestId → Except String ExecOutcome
  notify_test_done : TestId → Status → Except String Unit
  readAsset : FileRef → Option (List Nat)

/-- The valuer loop of `do_judge` (lib.rs:206-256).  `none` models a
panic (duplicate log kind, or the unguarded index in `transform`). -/
def judge_loop (env : JudgeEnv) (problem : Problem) (compile_res : BuildOutcome) :
    List (Except String ValuerResponse) → List (TestId × ExecOutcome) →
    ProtocolSenderState → Option (ProtocolSenderState × List Event × Except String Unit)
  | [], _, st => some (st, [], .error "valuer response timed out")
  | poll :: polls, test_results, st =>
    match poll with
    | .error e => some (st, [], .error e)
    | .ok .finish => some (st, [], .ok ())
    | .ok (.liveScore score) =>
      match judge_loop env problem compile_res polls test_results st with
      | none => none
      | some (st1, evs, r) => some (st1, Event.liveScore score :: evs, r)
    | .ok (.test tid live) =>
      let pre := if live then [Event.liveTest tid] else []
      match env.exec_test tid with
      | .error e => some (st, pre, .error e)
      | .ok test_result =>
        match env.notify_test_done tid test_result.status with
        | .error e => some (st, pre, .error e)
        | .ok _ =>
          match judge_loop env problem compile_res polls
              (test_results ++ [(tid, test_result)]) st with
          | none => none
          | some (st1, evs, r) => some (st1, pre ++ evs, r)
    | .ok (.judgeLog vlog) =>
      match transform env.readAsset vlog compile_res test_results problem with
      | .error .panicIndex => none
      | .error (.readFailed _) =>
          some (st, [], .error "failed to convert valuer judge log to invoker judge log")
      | .ok converted =>
        match send_log st converted with
        | none => none
        | some (st1, ev) =>
          match judge_loop env problem compile_res polls test_results st1 with
          | none => none
          | some (st2, evs, r) => some (st2, ev :: evs, r)

/-- `do_judge` (lib.rs:134-259): resolve problem and toolchain,
compile, then either publish fake logs with the compile status and
return `Ok` (compile failure is a successful outcome) or run the
valuer loop. -/
def do_judge (env : JudgeEnv) (st : ProtocolSenderState) :
    Option (ProtocolSenderState × List Event × Except String Unit) :=
  match env.find_problem with
  | .error e => some (st, [], .error e)
  | .ok none => some (st, [], .error "problem not found")
  | .ok (some problem) =>
    match env.resolve_toolchain with
    | .error e => some (st, [], .error e)
    | .ok toolchain =>
      match env.compile_response with
      | .error e => some (st, [], .error e)
      | .ok resp =>
        match compile_process_response toolchain.limits resp with
        | .error e => some (st, [], .error e)
        | .ok compile_res =>
          match compile_res.result with
          | .error status =>
            let r := send_fake_logs st status compile_res.log
            some (r.1, r.2, .ok ())
          | .ok _built =>
            match env.valuer_init with
            | .error e => some (st, [], .error e)
            | .ok _ => judge_loop env problem compile_res env.valuer_polls [] st

inductive JudgeOutcome where
  | success
  | fault (error : String)
  deriving Repr

/-- `judge` (lib.rs:77-107) composed with `JobProgress::wait`
(lib.rs:117-126): run `do_judge` from a fresh sender; on `Err`, send
fake JUDGE_FAULT logs with an empty compile log for the remaining
kinds (all events precede the terminal outcome).  `none` models a
panicked background task. -/
def judge (env : JudgeEnv) : Option (List Event × JudgeOutcome) :=
  match do_judge env senderInit with
  | none => none
  | some (_, evs, .ok _) => some (evs, .success)
  | some (st, evs, .error e) =>
    let r := send_fake_logs st ⟨.internalError, status_codes.JUDGE_FAULT⟩ []
    some (evs ++ r.2, .fault e)

/-! ## Fake mode (processor/src/fake.rs) -/

/-- The kind-independent payload of a generated fake-mode log (the
seeded-RNG content of `generate_judge_log`, abstracted). -/
structure FakeLogBody where
  tests : List JudgeLogTestRow
  subtasks : List JudgeLogSubtaskRow
  compile_log : List Nat
  score : Nat
  status : Status

/-- `generate_judge_log` (fake.rs:49-95): the produced log carries the
requested kind and `is_full = false`. -/
def generate_judge_log (kind : JudgeLogKind) (body : FakeLogBody) : JudgeLog :=
  { kind := kind, tests := body.tests, subtasks := body.subtasks,
    compile_log := body.compile_log, score := body.score,
    is_full := false, status := body.status }

/-- fake.rs::do_judge (fake.rs:97-105): one generated log per kind in
`JudgeLogKind::list()`, each emitted through `send_log`. -/
def fake_do_judge (gen : JudgeLogKind → FakeLogBody) (st : ProtocolSenderState) :
    Option (ProtocolSenderState × List Event) :=
  runOps (JudgeLogKind.list.map
    (fun kind => SenderOp.sendLog (generate_judge_log kind (gen kind)))) st

/-! ## Sender and driver lemmas -/

theorem logKinds_nil : logKinds [] = [] := rfl

theorem logKinds_append (a b : List Event) :
    logKinds (a ++ b) = logKinds a ++ logKinds b := by
  simp [logKinds]

theorem logKinds_fake_map (kinds : List JudgeLogKind) (status : Status)
    (clog : List Nat) :
    logKinds (kinds.map (fun k => Event.logCreated (fakeLog k status clog))) = kinds := by
  induction kinds with
  | nil => rfl
  | cons k ks ih => simp [logKinds, fakeLog] at ih ⊢; exact ih

theorem kinds_list_nodup : JudgeLogKind.list.Nodup := by decide

theorem send_log_eq (st : ProtocolSenderState) (log : JudgeLog)
    (st1 : ProtocolSenderState) (ev : Event)
    (h : send_log st log = some (st1, ev)) :
    st1.sent = st.sent ++ [log.kind] ∧ log.kind ∉ st.sent ∧
      ev = .logCreated log := by
  by_cases hk : log.kind ∈ st.sent <;> simp [send_log, hk] at h
  exact ⟨by rw [← h.1], hk, by rw [← h.2]⟩

theorem send_fake_logs_aux_spec (status : Status) (clog : List Nat) :
    ∀ kinds : List JudgeLogKind, kinds.Nodup → ∀ st : ProtocolSenderState,
      (send_fake_logs_aux status clog kinds st).2 =
        (kinds.filter (fun k => decide (k ∉ st.sent))).map
          (fun k => Event.logCreated (fakeLog k status clog)) ∧
      (send_fake_logs_aux status clog kinds st).1.sent =
        st.sent ++ kinds.filter (fun k => decide (k ∉ st.sent)) := by
  intro kinds
  induction kinds with
  | nil => intro _ st; simp [send_fake_logs_aux]
  | cons k ks ih =>
    intro hnd st
    have hkks : k ∉ ks := (List.nodup_cons.mp hnd).1
    have hnd2 : ks.Nodup := (List.nodup_cons.mp hnd).2
    by_cases hk : k ∈ st.sent
    · rw [show send_fake_logs_aux status clog (k :: ks) st =
          send_fake_logs_aux status clog ks st from by
        simp [send_fake_logs_aux, hk]]
      rw [List.filter_cons, if_neg (by simp [hk])]
      exact ih hnd2 st
    · have hst1 := ih hnd2 ⟨st.sent ++ [k]⟩
      have hfe : ks.filter
            (fun x => decide (x ∉ (⟨st.sent ++ [k]⟩ : ProtocolSenderState).sent))
          = ks.filter (fun x => decide (x ∉ st.sent)) := by
        apply List.filter_congr
        intro x hx
        have hxk : x ≠ k := fun e => hkks (e ▸ hx)
        simp [List.mem_append, hxk]
      rw [hfe] at hst1
      rw [show send_fake_logs_aux status clog (k :: ks) st =
          ((send_fake_logs_aux status clog ks ⟨st.sent ++ [k]⟩).1,
           Event.logCreated (fakeLog k status clog) ::
             (send_fake_logs_aux status clog ks ⟨st.sent ++ [k]⟩).2) from by
        simp [send_fake_logs_aux, hk]]
      rw [List.filter_cons, if_pos (by simp [hk])]
      refine ⟨?_, ?_⟩
      · simp only [List.map_cons]
        rw [hst1.1]
      · rw [hst1.2]
        simp

theorem send_fake_logs_spec (st : ProtocolSenderState) (status : Status)
    (clog : List Nat) :
    (send_fake_logs st status clog).2 =
      (JudgeLogKind.list.filter (fun k => decide (k ∉ st.sent))).map
        (fun k => Event.logCreated (fakeLog k status clog)) ∧
    (send_fake_logs st status clog).1.sent =
      st.sent ++ JudgeLogKind.list.filter (fun k => decide (k ∉ st.sent)) :=
  send_fake_logs_aux_spec status clog JudgeLogKind.list kinds_list_nodup st

theorem sent_append_nodup (l : List JudgeLogKind) (kinds : List JudgeLogKind)
    (hl : l.Nodup) (hkinds : kinds.Nodup)
    (hdisj : ∀ k ∈ kinds, k ∉ l) :
    (l ++ kinds).Nodup := by
  rw [List.nodup_append]
  exact ⟨hl, hkinds, fun a ha hb => hdisj a hb ha⟩

theorem send_fake_logs_sent_nodup (st : ProtocolSenderState) (status : Status)
    (clog : List Nat) (h : st.sent.Nodup) :
    (send_fake_logs st status clog).1.sent.Nodup := by
  rw [(send_fake_logs_spec st status clog).2]
  apply sent_append_nodup _ _ h
  · exact kinds_list_nodup.filter _
  · intro k hk
    have := List.of_mem_filter hk
    exact of_decide_eq_true this

/-- The trivial case of the sender invariant: nothing was sent. -/
theorem sender_spec_trivial (st st' : ProtocolSenderState) (evs : List Event)
    (h1 : st = st') (h2 : ([] : List Event) = evs) :
    st'.sent = st.sent ++ logKinds evs ∧ (st.sent.Nodup → st'.sent.Nodup) := by
  subst h1
  subst h2
  simp [logKinds]

/-- The send_log step of the sender invariant. -/
theorem sender_spec_log_step (st st1 st2 : ProtocolSenderState) (log : JudgeLog)
    (ev : Event) (evs2 : List Event)
    (hsl : send_log st log = some (st1, ev))
    (ih : st2.sent = st1.sent ++ logKinds evs2 ∧ (st1.sent.Nodup → st2.sent.Nodup)) :
    st2.sent = st.sent ++ logKinds (ev :: evs2) ∧
      (st.sent.Nodup → st2.sent.Nodup) := by
  obtain ⟨hsent1, hnotin, hev⟩ := send_log_eq st log st1 ev hsl
  refine ⟨?_, ?_⟩
  · rw [ih.1, hsent1, hev]
    simp [logKinds]
  · intro hnd
    apply ih.2
    rw [hsent1]
    exact sent_append_nodup _ _ hnd (List.nodup_singleton _) (by simpa using hnotin)

theorem runOps_spec : ∀ (ops : List SenderOp) (st st' : ProtocolSenderState)
    (evs : List Event), runOps ops st = some (st', evs) →
    st'.sent = st.sent ++ logKinds evs ∧ (st.sent.Nodup → st'.sent.Nodup)
  | [], st, st', evs, h => by
    simp only [runOps, Option.some.injEq, Prod.mk.injEq] at h
    exact sender_spec_trivial st st' evs h.1 h.2
  | .sendLog log :: ops, st, st', evs, h => by
    simp only [runOps] at h
    split at h
    · exact absurd h (by simp)
    · rename_i st1 ev hsl
      split at h
      · exact absurd h (by simp)
      · rename_i st2 evs2 hro
        simp only [Option.some.injEq, Prod.mk.injEq] at h
        obtain ⟨h1, h2⟩ := h
        rw [← h1, ← h2]
        exact sender_spec_log_step st st1 st2 log ev evs2 hsl
          (runOps_spec ops st1 st2 evs2 hro)
  | .sendFakeLogs status clog :: ops, st, st', evs, h => by
    simp only [runOps] at h
    split at h
    · exact absurd h (by simp)
    · rename_i st2 evs2 hro
      simp only [Option.some.injEq, Prod.mk.injEq] at h
      obtain ⟨h1, h2⟩ := h
      rw [← h1, ← h2]
      have hsp := send_fake_logs_spec st status clog
      have ih := runOps_spec ops _ st2 evs2 hro
      refine ⟨?_, ?_⟩
      · rw [ih.1, hsp.2, logKinds_append, hsp.1, logKinds_fake_map]
        simp
      · intro hnd
        exact ih.2 (send_fake_logs_sent_nodup st status clog hnd)

theorem judge_loop_spec (env : JudgeEnv) (problem : Problem)
    (compile_res : BuildOutcome) :
    ∀ (polls : List (Except String ValuerResponse))
      (test_results : List (TestId × ExecOutcome))
      (st st' : ProtocolSenderState) (evs : List Event)
      (r : Except String Unit),
      judge_loop env problem compile_res polls test_results st = some (st', evs, r) →
      st'.sent = st.sent ++ logKinds evs ∧ (st.sent.Nodup → st'.sent.Nodup)
  | [], test_results, st, st', evs, r, h => by
    simp only [judge_loop, Option.some.injEq, Prod.mk.injEq] at h
    exact sender_spec_trivial st st' evs h.1 h.2.1
  | .error e :: polls, test_results, st, st', evs, r, h => by
    simp only [judge_loop, Option.some.injEq, Prod.mk.injEq] at h
    exact sender_spec_trivial st st' evs h.1 h.2.1
  | .ok .finish :: polls, test_results, st, st', evs, r, h => by
    simp only [judge_loop, Option.some.injEq, Prod.mk.injEq] at h
    exact sender_spec_trivial st st' evs h.1 h.2.1
  | .ok (.liveScore score) :: polls, test_results, st, st', evs, r, h => by
    simp only [judge_loop] at h
    split at h
    · exact absurd h (by simp)
    · rename_i st1 evs1 r1 hrec
      simp only [Option.some.injEq, Prod.mk.injEq] at h
      obtain ⟨h1, h2, h3⟩ := h
      rw [← h1, ← h2]
      have ih := judge_loop_spec env problem compile_res polls test_results
        st st1 evs1 r1 hrec
      simpa [logKinds] using ih
  | .ok (.test tid live) :: polls, test_results, st, st', evs, r, h => by
    simp only [judge_loop] at h
    have hpre : logKinds (if live then [Event.liveTest tid] else []) = [] := by
      cases live <;> simp [logKinds]
    split at h
    · -- exec_test errored
      rename_i e hexec
      simp only [Option.some.injEq, Prod.mk.injEq] at h
      obtain ⟨h1, h2, h3⟩ := h
      rw [← h1, ← h2, hpre]
      simp
    · rename_i test_result hexec
      split at h
      · -- notify errored
        rename_i e hnot
        simp only [Option.some.injEq, Prod.mk.injEq] at h
        obtain ⟨h1, h2, h3⟩ := h
        rw [← h1, ← h2, hpre]
        simp
      · rename_i u hnot
        split at h
        · exact absurd h (by simp)
        · rename_i st1 evs1 r1 hrec
          simp only [Option.some.injEq, Prod.mk.injEq] at h
          obtain ⟨h1, h2, h3⟩ := h
          rw [← h1, ← h2, logKinds_append, hpre]
          have ih := judge_loop_spec env problem compile_res polls
            (test_results ++ [(tid, test_result)]) st st1 evs1 r1 hrec
          simpa using ih
  | .ok (.judgeLog vlog) :: polls, test_results, st, st', evs, r, h => by
    simp only [judge_loop] at h
    split at h
    · exact absurd h (by simp)
    · -- transform failed with a read error
      rename_i w htr
      simp only [Option.some.injEq, Prod.mk.injEq] at h
      exact sender_spec_trivial st st' evs h.1 h.2.1
    · rename_i converted htr
      split at h
      · exact absurd h (by simp)
      · rename_i st1 ev hsl
        split at h
        · exact absurd h (by simp)
        · rename_i st2 evs2 r2 hrec
          simp only [Option.some.injEq, Prod.mk.injEq] at h
          obtain ⟨h1, h2, h3⟩ := h
          rw [← h1, ← h2]
          exact sender_spec_log_step st st1 st2 converted ev evs2 hsl
            (judge_loop_spec env problem compile_res polls test_results
              st1 st2 evs2 r2 hrec)

theorem do_judge_spec (env : JudgeEnv) (st st' : ProtocolSenderState)
    (evs : List Event) (r : Except String Unit)
    (h : do_judge env st = some (st', evs, r)) :
    st'.sent = st.sent ++ logKinds evs ∧ (st.sent.Nodup → st'.sent.Nodup) := by
  unfold do_judge at h
  split at h
  · simp only [Option.some.injEq, Prod.mk.injEq] at h
    exact sender_spec_trivial st st' evs h.1 h.2.1
  · simp only [Option.some.injEq, Prod.mk.injEq] at h
    exact sender_spec_trivial st st' evs h.1 h.2.1
  · rename_i problem hfp
    split at h
    · simp only [Option.some.injEq, Prod.mk.injEq] at h
      exact sender_spec_trivial st st' evs h.1 h.2.1
    · rename_i toolchain hrt
      split at h
      · simp only [Option.some.injEq, Prod.mk.injEq] at h
        exact sender_spec_trivial st st' evs h.1 h.2.1
      · rename_i resp hcr
        split at h
        · simp only [Option.some.injEq, Prod.mk.injEq] at h
          exact sender_spec_trivial st st' evs h.1 h.2.1
        · rename_i compile_res hcp
          split at h
          · -- compile failure: fake logs, Ok
            rename_i status hres
            simp only [Option.some.injEq, Prod.mk.injEq] at h
            obtain ⟨h1, h2, h3⟩ := h
            rw [← h1, ← h2]
            have hsp := send_fake_logs_spec st status compile_res.log
            refine ⟨?_, ?_⟩
            · rw [hsp.1, logKinds_fake_map, hsp.2]
            · intro hnd
              exact send_fake_logs_sent_nodup st status compile_res.log hnd
          · rename_i built hres
            split at h
            · simp only [Option.some.injEq, Prod.mk.injEq] at h
              exact sender_spec_trivial st st' evs h.1 h.2.1
            · rename_i u hvi
              exact judge_loop_spec env problem compile_res env.valuer_polls [] st
                st' evs r h

/-! ## Claim theorems -/

/-- C1: for every Limits and CommandResult, `describe_command_result`
returns Startup when spawn_error is set; otherwise TimeLimit exactly
when cpu_time is present and strictly greater than
`limits.time * 1_000_000` (equality is not TimeLimit); otherwise
MemLimit exactly when memory is present and strictly greater than
`limits.memory`; otherwise Runtime exactly when exit_code is non-zero;
otherwise Ok — checks applied in that order. -/
theorem c1_describe_command_result (limits : Limits) (data : CommandResult) :
    (describe_command_result limits data = .startup ↔ data.spawn_error.isSome) ∧
    (describe_command_result limits data = .timeLimit ↔
      data.spawn_error = none ∧
        ∃ usage, data.cpu_time = some usage ∧ limits.time * 1000000 < usage) ∧
    (describe_command_result limits data = .memLimit ↔
      data.spawn_error = none ∧
        (∀ usage ∈ data.cpu_time, usage ≤ limits.time * 1000000) ∧
        ∃ usage, data.memory = some usage ∧ limits.memory < usage) ∧
    (describe_command_result limits data = .runtime ↔
      data.spawn_error = none ∧
        (∀ usage ∈ data.cpu_time, usage ≤ limits.time * 1000000) ∧
        (∀ usage ∈ data.memory, usage ≤ limits.memory) ∧
        data.exit_code ≠ 0) ∧
    (describe_command_result limits data = .ok ↔
      data.spawn_error = none ∧
        (∀ usage ∈ data.cpu_time, usage ≤ limits.time * 1000000) ∧
        (∀ usage ∈ data.memory, usage ≤ limits.memory) ∧
        data.exit_code = 0) ∧
    (data.cpu_time = some (limits.time * 1000000) →
      describe_command_result limits data ≠ .timeLimit) := by
  rcases data with ⟨se, ct, mem, ec⟩
  rcases se with _ | se <;> rcases ct with _ | ct <;> rcases mem with _ | mem <;>
    (unfold describe_command_result; split_ifs <;> simp_all <;> try omega)

/-! ## Compile-loop characterization (for C2, C7) -/

/-- Whether a build-command step is classified non-Ok. -/
def isFailStep (limits : Limits) (s : StepData) : Bool :=
  (compileStatusCode (describe_command_result limits s.result)).isSome

/-- Concatenated framed segments, numbering steps from `i`. -/
def framesFrom (i : Nat) : List StepData → List Nat
  | [] => []
  | s :: rest => stepFrame i s.stdout s.stderr ++ framesFrom (i + 1) rest

theorem findIdx_lt_none {α} (p : α → Bool) :
    ∀ (l : List α) (j : Nat), j < l.findIdx p → ∀ x, l.get? j = some x → p x = false
  | [], j, h, x, hx => by simp at hx
  | a :: l, 0, h, x, hx => by
    simp only [List.get?] at hx
    cases hpa : p a
    · simp only [Option.some.injEq] at hx
      rw [← hx]
      exact hpa
    · simp [List.findIdx_cons, hpa] at h
  | a :: l, j + 1, h, x, hx => by
    simp only [List.get?] at hx
    cases hpa : p a
    · simp only [List.findIdx_cons, hpa, cond_false, Nat.add_lt_add_iff_right] at h
      exact findIdx_lt_none p l j h x hx
    · simp [List.findIdx_cons, hpa] at h

theorem findIdx_found {α} (p : α → Bool) :
    ∀ l : List α, l.findIdx p < l.length →
      ∃ x, l.get? (l.findIdx p) = some x ∧ p x = true
  | [], h => by simp at h
  | a :: l, h => by
    cases hpa : p a
    · simp only [List.findIdx_cons, hpa, cond_false] at h ⊢
      simp only [List.length_cons, Nat.add_lt_add_iff_right] at h
      obtain ⟨x, hget, hpx⟩ := findIdx_found p l h
      exact ⟨x, by simpa using hget, hpx⟩
    · exact ⟨a, by simp [List.findIdx_cons, hpa], hpa⟩

theorem compileLoop_log (limits : Limits) :
    ∀ (steps : List StepData) (i : Nat),
      (compileLoop limits i steps).1 =
        framesFrom i (steps.take (steps.findIdx (isFailStep limits) + 1))
  | [], i => by simp [compileLoop, framesFrom]
  | s :: rest, i => by
    simp only [compileLoop]
    match hc : compileStatusCode (describe_command_result limits s.result) with
    | some code =>
      have hp : isFailStep limits s = true := by simp [isFailStep, hc]
      simp [List.findIdx_cons, hp, framesFrom]
    | none =>
      have hp : isFailStep limits s = false := by simp [isFailStep, hc]
      simp only [List.findIdx_cons, hp, cond_false]
      simp only [List.take_succ_cons, framesFrom]
      rw [compileLoop_log limits rest (i + 1)]

theorem compileLoop_status (limits : Limits) :
    ∀ (steps : List StepData) (i : Nat),
      (compileLoop limits i steps).2 =
        (steps.get? (steps.findIdx (isFailStep limits))).map
          (fun s => ⟨.compilationError,
            if describe_command_result limits s.result = .timeLimit
            then status_codes.COMPILATION_TIMED_OUT
            else status_codes.COMPILER_FAILED⟩)
  | [], i => by simp [compileLoop]
  | s :: rest, i => by
    simp only [compileLoop]
    match hc : compileStatusCode (describe_command_result limits s.result) with
    | some code =>
      have hp : isFailStep limits s = true := by simp [isFailStep, hc]
      simp only [List.findIdx_cons, hp, cond_true, List.get?]
      rcases hdes : describe_command_result limits s.result with _ | _ | _ | _ | _ <;>
        rw [hdes] at hc <;> simp [compileStatusCode] at hc <;>
          simp [← hc, hdes, status_codes.COMPILATION_TIMED_OUT,
            status_codes.COMPILER_FAILED]
    | none =>
      have hp : isFailStep limits s = false := by simp [isFailStep, hc]
      simp only [List.findIdx_cons, hp, cond_false, List.get?]
      exact compileLoop_status limits rest (i + 1)

theorem compile_process_response_err (limits : Limits) (resp : CompileResponse)
    (outcome : BuildOutcome) (status : Status)
    (hout : compile_process_response limits resp = .ok outcome)
    (hst : outcome.result = .error status) :
    compileLoop limits 0 resp.steps = (outcome.log, some status) := by
  unfold compile_process_response at hout
  split at hout
  · rename_i log status2 hcl
    simp only [Except.ok.injEq] at hout
    rw [← hout] at hst
    simp only at hst
    rw [hcl, ← hout]
    simp only [Except.error.injEq] at hst
    rw [hst]
  · rename_i log hcl
    split at hout
    · rename_i binary
      simp only [Except.ok.injEq] at hout
      rw [← hout] at hst
      simp at hst
    · exact absurd hout (by simp)

theorem isFailStep_false_iff (limits : Limits) (s : StepData) :
    isFailStep limits s = false ↔
      describe_command_result limits s.result = .ok := by
  rcases h : describe_command_result limits s.result <;>
    simp [isFailStep, compileStatusCode, h]

theorem compileLoop_take (limits : Limits) :
    ∀ (steps : List StepData) (i : Nat),
      compileLoop limits i (steps.take (steps.findIdx (isFailStep limits) + 1)) =
        compileLoop limits i steps
  | [], i => rfl
  | s :: rest, i => by
    cases hp : isFailStep limits s
    · have hc : compileStatusCode (describe_command_result limits s.result) = none := by
        cases ho : compileStatusCode (describe_command_result limits s.result)
        · rfl
        · exact absurd hp (by simp [isFailStep, ho])
      simp only [List.findIdx_cons, hp, cond_false, List.take_succ_cons]
      simp only [compileLoop, hc]
      rw [compileLoop_take limits rest (i + 1)]
    · have hc : ∃ code, compileStatusCode (describe_command_result limits s.result)
          = some code := by
        cases ho : compileStatusCode (describe_command_result limits s.result)
        · exact absurd hp (by simp [isFailStep, ho])
        · exact ⟨_, rfl⟩
      obtain ⟨code, hc⟩ := hc
      simp [List.findIdx_cons, hp, compileLoop, hc]

/-- C7 (counterexample): the spec claims each payload is followed by a
newline; this is the frame in that claimed form. -/
def claimedStepFrame (i : Nat) (stdout stderr : List Nat) : List Nat :=
  strBytes ("------ step " ++ toString i ++ " ------\n") ++
  strBytes "--- stdout ---\n" ++ utf8Lossy stdout ++ strBytes "\n" ++
  strBytes "--- stderr ---\n" ++ utf8Lossy stderr ++ strBytes "\n"

/-- C7 counterexample: for a response with one successful step and
empty stdout/stderr, the compile log produced by the code is the frame
without trailing newlines after the payloads, which differs from the
frame in the claim's form (payloads newline-terminated). -/
theorem c7_counterexample :
    compile_process_response ⟨0, 0⟩
        ⟨[⟨⟨none, none, none, 0⟩, [], []⟩], some []⟩ =
      .ok ⟨.ok ⟨[]⟩, stepFrame 0 [] []⟩ ∧
    stepFrame 0 [] [] ≠ claimedStepFrame 0 [] [] := by
  refine ⟨by rfl, by decide⟩

/-- C7 (amended): for every compile invocation response accepted by the
driver, the compile log is the concatenation, over build-command steps
in order up to and including the first failing step (all steps when
none fails), of the framed segment
`------ step i ------\n--- stdout ---\n{stdout}--- stderr ---\n{stderr}`
— each delimiter followed by a newline, the (UTF-8-lossy) payloads
appended with no added newline, even when stdout or stderr is empty. -/
theorem c7_compile_log_frames (limits : Limits) (resp : CompileResponse)
    (outcome : BuildOutcome)
    (hout : compile_process_response limits resp = .ok outcome) :
    outcome.log =
      framesFrom 0 (resp.steps.take (resp.steps.findIdx (isFailStep limits) + 1)) := by
  unfold compile_process_response at hout
  split at hout
  · rename_i log status hcl
    have hlog := compileLoop_log limits resp.steps 0
    rw [hcl] at hlog
    simp only [Except.ok.injEq] at hout
    rw [← hout]
    exact hlog
  · rename_i log hcl
    split at hout
    · rename_i binary
      have hlog := compileLoop_log limits resp.steps 0
      rw [hcl] at hlog
      simp only [Except.ok.injEq] at hout
      rw [← hout]
      exact hlog
    · exact absurd hout (by simp)

/-- C7 witness: the amended claim applied to the counterexample
response. -/
theorem c7_compile_log_frames_witness :
    (⟨.ok ⟨[]⟩, stepFrame 0 [] []⟩ : BuildOutcome).log =
      framesFrom 0 (([⟨⟨none, none, none, 0⟩, [], []⟩] : List StepData).take
        (([⟨⟨none, none, none, 0⟩, [], []⟩] : List StepData).findIdx
          (isFailStep ⟨0, 0⟩) + 1)) :=
  c7_compile_log_frames ⟨0, 0⟩ ⟨[⟨⟨none, none, none, 0⟩, [], []⟩], some []⟩
    ⟨.ok ⟨[]⟩, stepFrame 0 [] []⟩ (by rfl)

/-- C2: when compilation has a non-Ok step, the earliest such step
determines the result — steps before it are Ok, processing is the same
as on the list truncated after it — and compilation returns
`Err(Status)` with kind CompilationError and code CompilationTimedOut
for a time-limit exceedance, CompilerFailed otherwise; the driver then
publishes one judge log per configured kind holding that status and
the accumulated compile log, and the job outcome is Success. -/
theorem c2_compile_failure_flow (env : JudgeEnv) (problem : Problem)
    (toolchain : Toolchain) (resp : CompileResponse) (outcome : BuildOutcome)
    (status : Status)
    (hfp : env.find_problem = .ok (some problem))
    (hrt : env.resolve_toolchain = .ok toolchain)
    (hcr : env.compile_response = .ok resp)
    (hout : compile_process_response toolchain.limits resp = .ok outcome)
    (hst : outcome.result = .error status) :
    resp.steps.findIdx (isFailStep toolchain.limits) < resp.steps.length ∧
    (∀ s, resp.steps.get? (resp.steps.findIdx (isFailStep toolchain.limits)) = some s →
      status = ⟨.compilationError,
        if describe_command_result toolchain.limits s.result = .timeLimit
        then status_codes.COMPILATION_TIMED_OUT
        else status_codes.COMPILER_FAILED⟩ ∧
      describe_command_result toolchain.limits s.result ≠ .ok) ∧
    (∀ j, j < resp.steps.findIdx (isFailStep toolchain.limits) →
      ∀ s2, resp.steps.get? j = some s2 →
        describe_command_result toolchain.limits s2.result = .ok) ∧
    compileLoop toolchain.limits 0
        (resp.steps.take (resp.steps.findIdx (isFailStep toolchain.limits) + 1)) =
      compileLoop toolchain.limits 0 resp.steps ∧
    do_judge env senderInit =
      some ((send_fake_logs senderInit status outcome.log).1,
            (send_fake_logs senderInit status outcome.log).2, .ok ()) ∧
    judge env = some
      (JudgeLogKind.list.map (fun k => Event.logCreated
        { kind := k, tests := [], subtasks := [], compile_log := outcome.log,
          score := 0, is_full := false, status := status }), .success) := by
  have hcl := compile_process_response_err toolchain.limits resp outcome status hout hst
  have hstat := compileLoop_status toolchain.limits resp.steps 0
  rw [hcl] at hstat
  have hfi : resp.steps.findIdx (isFailStep toolchain.limits) < resp.steps.length := by
    by_contra hge
    rw [List.get?_eq_none.mpr (Nat.le_of_not_lt hge)] at hstat
    simp at hstat
  have hdo : do_judge env senderInit =
      some ((send_fake_logs senderInit status outcome.log).1,
            (send_fake_logs senderInit status outcome.log).2, .ok ()) := by
    simp only [do_judge, hfp, hrt, hcr, hout, hst]
  refine ⟨hfi, ?_, ?_, compileLoop_take toolchain.limits resp.steps 0, hdo, ?_⟩
  · intro s hs
    obtain ⟨x, hx, hpx⟩ := findIdx_found (isFailStep toolchain.limits) resp.steps hfi
    rw [hs] at hx hstat
    simp only [Option.some.injEq] at hx
    rw [← hx] at hpx
    simp only [Option.map, Option.some.injEq] at hstat
    refine ⟨hstat, ?_⟩
    intro hok
    have hfalse : isFailStep toolchain.limits s = false :=
      (isFailStep_false_iff toolchain.limits s).mpr hok
    rw [hfalse] at hpx
    exact Bool.false_ne_true hpx
  · intro j hj s2 hs2
    exact (isFailStep_false_iff toolchain.limits s2).mp
      (findIdx_lt_none (isFailStep toolchain.limits) resp.steps j hj s2 hs2)
  · have hsp := (send_fake_logs_spec senderInit status outcome.log).1
    have hfil : JudgeLogKind.list.filter (fun k => decide (k ∉ senderInit.sent)) =
        JudgeLogKind.list := by decide
    rw [hfil] at hsp
    simp only [judge, hdo]
    rw [hsp]
    rfl

/-- C2 witness: a one-step compilation whose only step exits non-zero;
the status is CompilationError/CompilerFailed and the job publishes one
such log per kind and succeeds. -/
def c2_resp : CompileResponse := ⟨[⟨⟨none, none, none, 1⟩, [], []⟩], none⟩

def c2_problem : Problem := ⟨[], ⟨.problem, "checker"⟩, []⟩

def c2_toolchain : Toolchain := ⟨"image", ⟨0, 0⟩⟩

def c2_env : JudgeEnv :=
  { find_problem := .ok (some c2_problem)
    resolve_toolchain := .ok c2_toolchain
    compile_response := .ok c2_resp
    valuer_init := .ok ()
    valuer_polls := []
    exec_test := fun _ => .error "unused"
    notify_test_done := fun _ _ => .ok ()
    readAsset := fun _ => none }

theorem c2_compile_failure_flow_witness :
    judge c2_env = some
      (JudgeLogKind.list.map (fun k => Event.logCreated
        { kind := k, tests := [], subtasks := [], compile_log := stepFrame 0 [] [],
          score := 0, is_full := false,
          status := ⟨.compilationError, status_codes.COMPILER_FAILED⟩ }), .success) :=
  (c2_compile_failure_flow c2_env c2_problem c2_toolchain c2_resp
    ⟨.error ⟨.compilationError, status_codes.COMPILER_FAILED⟩, stepFrame 0 [] []⟩
    ⟨.compilationError, status_codes.COMPILER_FAILED⟩
    rfl rfl rfl (by rfl) (by rfl)).2.2.2.2.2

/-- C3: for every terminating job — the judge driver on any environment
(normal, compile-failure and fault paths) and the fake mode — the
emitted judge-log kinds contain no kind twice: the kinds of the
LogCreated events are pairwise distinct. -/
theorem c3_log_kinds_unique :
    (∀ (env : JudgeEnv) (evs : List Event) (out : JudgeOutcome),
      judge env = some (evs, out) → (logKinds evs).Nodup) ∧
    (∀ (gen : JudgeLogKind → FakeLogBody) (st' : ProtocolSenderState)
      (evs : List Event),
      fake_do_judge gen senderInit = some (st', evs) → (logKinds evs).Nodup) := by
  constructor
  · intro env evs out h
    unfold judge at h
    split at h
    · exact absurd h (by simp)
    · rename_i st1 evs0 u hdo
      simp only [Option.some.injEq, Prod.mk.injEq] at h
      have hspec := do_judge_spec env senderInit st1 evs0 (.ok u) hdo
      have hsent : st1.sent = logKinds evs0 := by
        rw [hspec.1]
        simp [senderInit]
      have hnd : st1.sent.Nodup := hspec.2 (by simp [senderInit])
      rw [hsent] at hnd
      rw [← h.1]
      exact hnd
    · rename_i st1 evs0 e hdo
      simp only [Option.some.injEq, Prod.mk.injEq] at h
      have hspec := do_judge_spec env senderInit st1 evs0 (.error e) hdo
      have hsent : st1.sent = logKinds evs0 := by
        rw [hspec.1]
        simp [senderInit]
      have hsp := send_fake_logs_spec st1
        ⟨.internalError, status_codes.JUDGE_FAULT⟩ []
      have hnd2 : (send_fake_logs st1
          ⟨.internalError, status_codes.JUDGE_FAULT⟩ []).1.sent.Nodup :=
        send_fake_logs_sent_nodup st1 _ _ (by rw [hsent] at hspec ⊢; exact hspec.2 (by simp [senderInit]))
      rw [hsp.2, hsent] at hnd2
      rw [← h.1, logKinds_append, hsp.1, logKinds_fake_map, hsent]
      exact hnd2
  · intro gen st' evs h
    have hspec := runOps_spec _ senderInit st' evs h
    have hsent : st'.sent = logKinds evs := by
      rw [hspec.1]
      simp [senderInit]
    have hnd : st'.sent.Nodup := hspec.2 (by simp [senderInit])
    rw [hsent] at hnd
    exact hnd

/-- C9: whenever judging fails with an error at any point — including
before compilation (problem not found, toolchain failure) — the driver
publishes, before the Fault outcome, one fake judge log for every kind
in `JudgeLogKind::list()` not already emitted, each with status
InternalError/JUDGE_FAULT, empty compile log, score 0 and empty tests
and subtasks. -/
theorem c9_fault_fake_logs (env : JudgeEnv) (st : ProtocolSenderState)
    (evs : List Event) (e : String)
    (h : do_judge env senderInit = some (st, evs, .error e)) :
    judge env = some
      (evs ++ (JudgeLogKind.list.filter (fun k => decide (k ∉ logKinds evs))).map
        (fun k => Event.logCreated
          { kind := k, tests := [], subtasks := [], compile_log := [],
            score := 0, is_full := false,
            status := ⟨.internalError, status_codes.JUDGE_FAULT⟩ }),
       .fault e) := by
  have hspec := do_judge_spec env senderInit st evs (.error e) h
  have hsent : st.sent = logKinds evs := by
    rw [hspec.1]
    simp [senderInit]
  have hsp := send_fake_logs_spec st ⟨.internalError, status_codes.JUDGE_FAULT⟩ []
  simp only [judge, h]
  rw [hsp.1, hsent]
  rfl

def c9_env : JudgeEnv :=
  { find_problem := .ok none
    resolve_toolchain := .error "unused"
    compile_response := .error "unused"
    valuer_init := .ok ()
    valuer_polls := []
    exec_test := fun _ => .error "unused"
    notify_test_done := fun _ _ => .ok ()
    readAsset := fun _ => none }

/-- C9 witness: a job that fails before compilation because the problem
is not found still publishes a fake log of every kind. -/
theorem c9_fault_fake_logs_witness :
    judge c9_env = some
      (([] : List Event) ++
        (JudgeLogKind.list.filter (fun k => decide (k ∉ logKinds []))).map
        (fun k => Event.logCreated
          { kind := k, tests := [], subtasks := [], compile_log := [],
            score := 0, is_full := false,
            status := ⟨.internalError, status_codes.JUDGE_FAULT⟩ }),
       .fault "problem not found") :=
  c9_fault_fake_logs c9_env senderInit [] "problem not found" (by rfl)

/-! ## Transformer lemmas (for C4, C5, C8, C10) -/

theorem ru_of_find : ∀ results : List (TestId × ExecOutcome),
    (results.map Prod.fst).Nodup → ∀ (t : TestId) (eo : ExecOutcome),
    find_outcome results t = some eo →
    resource_usage_by_test results t = some eo.resource_usage
  | [], _, t, eo, hfo => by simp [find_outcome] at hfo
  | (k, v) :: rest, hnd, t, eo, hfo => by
    have hnd2 : (rest.map Prod.fst).Nodup := (List.nodup_cons.mp (by simpa using hnd)).2
    have hknotin : k ∉ rest.map Prod.fst := (List.nodup_cons.mp (by simpa using hnd)).1
    cases hkt : ((k == t : Bool))
    · have hfind : find_outcome ((k, v) :: rest) t = find_outcome rest t := by
        simp [find_outcome, List.find?, hkt]
      rw [hfind] at hfo
      have hstep : resource_usage_by_test ((k, v) :: rest) t =
          resource_usage_by_test rest t := by
        simp [resource_usage_by_test, List.filter_cons, hkt]
      rw [hstep]
      exact ru_of_find rest hnd2 t eo hfo
    · have hkt2 : k = t := by simpa using hkt
      have hfo2 : v = eo := by
        simp [find_outcome, List.find?, hkt] at hfo
        exact hfo
      have hfilter : rest.filter (fun p => p.1 == t) = [] := by
        rw [List.filter_eq_nil_iff]
        intro p hp
        simp only [beq_iff_eq]
        intro hpt
        apply hknotin
        rw [hkt2, ← hpt]
        exact List.mem_map_of_mem Prod.fst hp
      simp [resource_usage_by_test, List.filter_cons, hkt, hfilter, ← hfo2]

theorem export_test_test_id (readAsset : FileRef → Option (List Nat))
    (problem : Problem) (ru : TestId → Option ResourceUsage)
    (item : ValuerTestRow) (eo : Option ExecOutcome) (r : JudgeLogTestRow)
    (hex : export_test readAsset problem ru item eo = .ok r) :
    r.test_id = item.test_id := by
  unfold export_test at hex
  iterate 14 (all_goals (try (split at hex)))
  all_goals
    first
      | (simp only [Except.ok.injEq] at hex; subst hex; rfl)
      | (exfalso; simp_all)

theorem export_test_none_char (readAsset : FileRef → Option (List Nat))
    (problem : Problem) (ru : TestId → Option ResourceUsage)
    (item : ValuerTestRow) (r : JudgeLogTestRow)
    (hex : export_test readAsset problem ru item none = .ok r) :
    r = { test_id := item.test_id,
          status := if item.components.status then some item.status else none,
          test_stdin := none, test_stdout := none, test_stderr := none,
          test_answer := none, time_usage := none, memory_usage := none } := by
  by_cases hst : item.components.status <;>
    simp only [export_test, hst, if_true, if_false, Except.ok.injEq] at hex <;>
    rw [← hex] <;> simp [hst]

set_option maxHeartbeats 1600000 in
theorem export_test_some_char (readAsset : FileRef → Option (List Nat))
    (problem : Problem) (results : List (TestId × ExecOutcome))
    (item : ValuerTestRow) (eo : ExecOutcome) (r : JudgeLogTestRow)
    (hnd : (results.map Prod.fst).Nodup)
    (hfo : find_outcome results item.test_id = some eo)
    (hex : export_test readAsset problem (resource_usage_by_test results) item
      (some eo) = .ok r) :
    r.test_id = item.test_id ∧
    r.status = (if item.components.status then some item.status else none) ∧
    (item.components.test_data = true →
      ∃ t bytes, problem.tests.get? item.test_id.to_idx = some t ∧
        readAsset t.path = some bytes ∧ r.test_stdin = some (base64Encode bytes)) ∧
    (item.components.test_data = false → r.test_stdin = none) ∧
    r.test_stdout = (if item.components.output then some (base64Encode eo.stdout) else none) ∧
    r.test_stderr = (if item.components.output then some (base64Encode eo.stderr) else none) ∧
    (item.components.answer = true →
      ∃ t, problem.tests.get? item.test_id.to_idx = some t ∧
        (∀ ref, t.correct = some ref →
          ∃ bytes, readAsset ref = some bytes ∧
            r.test_answer = some (base64Encode bytes)) ∧
        (t.correct = none → r.test_answer = none)) ∧
    (item.components.answer = false → r.test_answer = none) ∧
    r.memory_usage =
      (if item.components.resource_usage then eo.resource_usage.memory else none) ∧
    r.time_usage =
      (if item.components.resource_usage then eo.resource_usage.time else none) := by
  have hru : resource_usage_by_test results item.test_id = some eo.resource_usage :=
    ru_of_find results hnd item.test_id eo hfo
  unfold export_test at hex
  iterate 14 (all_goals (try (split at hex)))
  all_goals
    first
      | (simp only [Except.ok.injEq] at hex; subst hex; simp_all)
      | (exfalso; simp_all)

theorem export_all_mem (readAsset : FileRef → Option (List Nat)) (problem : Problem)
    (results : List (TestId × ExecOutcome)) :
    ∀ (items : List ValuerTestRow) (rows : List JudgeLogTestRow),
      export_all readAsset problem results items = .ok rows →
      ∀ r ∈ rows, ∃ item ∈ items,
        export_test readAsset problem (resource_usage_by_test results) item
          (find_outcome results item.test_id) = .ok r
  | [], rows, h, r, hr => by
    simp only [export_all, Except.ok.injEq] at h
    rw [← h] at hr
    simp at hr
  | item :: rest, rows, h, r, hr => by
    simp only [export_all] at h
    split at h
    · exact absurd h (by simp)
    · rename_i r1 hex1
      split at h
      · exact absurd h (by simp)
      · rename_i rs hrest
        simp only [Except.ok.injEq] at h
        rw [← h] at hr
        rcases List.mem_cons.mp hr with hr1 | hr2
        · exact ⟨item, by simp, hr1 ▸ hex1⟩
        · obtain ⟨it, hit, hexit⟩ :=
            export_all_mem readAsset problem results rest rs hrest r hr2
          exact ⟨it, by simp [hit], hexit⟩

theorem export_all_ids (readAsset : FileRef → Option (List Nat)) (problem : Problem)
    (results : List (TestId × ExecOutcome)) :
    ∀ (items : List ValuerTestRow) (rows : List JudgeLogTestRow),
      export_all readAsset problem results items = .ok rows →
      rows.map (fun r => r.test_id) = items.map (fun it => it.test_id)
  | [], rows, h => by
    simp only [export_all, Except.ok.injEq] at h
    rw [← h]
    simp
  | item :: rest, rows, h => by
    simp only [export_all] at h
    split at h
    · exact absurd h (by simp)
    · rename_i r1 hex1
      split at h
      · exact absurd h (by simp)
      · rename_i rs hrest
        simp only [Except.ok.injEq] at h
        rw [← h]
        simp only [List.map_cons]
        rw [export_test_test_id readAsset problem _ item _ r1 hex1,
            export_all_ids readAsset problem results rest rs hrest]

theorem transform_ok (readAsset : FileRef → Option (List Nat))
    (vlog : ValuerJudgeLog) (cr : BuildOutcome)
    (results : List (TestId × ExecOutcome)) (problem : Problem) (jl : JudgeLog)
    (h : transform readAsset vlog cr results problem = .ok jl) :
    ∃ rows, export_all readAsset problem results vlog.tests = .ok rows ∧
      jl.tests = List.insertionSort testRowLe rows ∧
      jl.subtasks = List.insertionSort subtaskRowLe
        (vlog.subtasks.map (fun it => ⟨it.subtask_id, some it.score⟩)) ∧
      jl.kind = vlog.kind ∧ jl.score = vlog.score ∧ jl.compile_log = cr.log ∧
      jl.is_full = false ∧
      jl.status = (if vlog.is_full then ⟨.accepted, status_codes.ACCEPTED⟩
        else ⟨.rejected, status_codes.PARTIAL_SOLUTION⟩) := by
  unfold transform at h
  split at h
  all_goals (
    split at h
    · exact absurd h (by simp)
    · rename_i rows hrows
      simp only [Except.ok.injEq] at h
      refine ⟨rows, hrows, by rw [← h], by rw [← h], by rw [← h], by rw [← h],
        by rw [← h], by rw [← h], ?_⟩
      rw [← h]
      simp [*])

/-- C5 (amended): in every emitted judge log, tests are sorted
non-decreasingly by test_id (strictly when the valuer log's test ids
are pairwise distinct) and subtasks non-decreasingly by subtask_id.
With duplicate test ids in the valuer log the order is only
non-decreasing — see the counterexample. -/
theorem c5_sorted_tests_subtasks (readAsset : FileRef → Option (List Nat))
    (vlog : ValuerJudgeLog) (cr : BuildOutcome)
    (results : List (TestId × ExecOutcome)) (problem : Problem) (jl : JudgeLog)
    (h : transform readAsset vlog cr results problem = .ok jl) :
    List.Pairwise (fun a b => a.test_id ≤ b.test_id) jl.tests ∧
    List.Pairwise (fun a b => a.subtask_id ≤ b.subtask_id) jl.subtasks ∧
    ((vlog.tests.map (fun it => it.test_id)).Nodup →
      List.Pairwise (fun a b => a.test_id < b.test_id) jl.tests) := by
  obtain ⟨rows, hrows, htests, hsub, -⟩ := transform_ok readAsset vlog cr results problem jl h
  refine ⟨?_, ?_, ?_⟩
  · rw [htests]
    exact List.sorted_insertionSort testRowLe rows
  · rw [hsub]
    exact List.sorted_insertionSort subtaskRowLe _
  · intro hnd
    rw [htests]
    have hperm : List.Perm (List.insertionSort testRowLe rows) rows :=
      List.perm_insertionSort _ _
    have hids : rows.map (fun r => r.test_id) = vlog.tests.map (fun it => it.test_id) :=
      export_all_ids readAsset problem results vlog.tests rows hrows
    have hnd2 : (rows.map (fun r => r.test_id)).Nodup := by rw [hids]; exact hnd
    have hnd3 : ((List.insertionSort testRowLe rows).map (fun r => r.test_id)).Nodup :=
      ((hperm.map (fun r => r.test_id)).nodup_iff).mpr hnd2
    have hne : List.Pairwise (fun a b => a.test_id ≠ b.test_id)
        (List.insertionSort testRowLe rows) := List.pairwise_map.mp hnd3
    have hsorted : List.Pairwise testRowLe (List.insertionSort testRowLe rows) :=
      List.sorted_insertionSort testRowLe rows
    exact (hsorted.and hne).imp fun hab => Nat.lt_of_le_of_ne hab.1 hab.2

def c5_row : ValuerTestRow :=
  ⟨1, ⟨.accepted, status_codes.TEST_PASSED⟩, ⟨false, false, false, false, false⟩⟩

def c5_vlog : ValuerJudgeLog := ⟨.contestant, [c5_row, c5_row], [], 0, false⟩

def c5_problem : Problem := ⟨[], ⟨.problem, "checker"⟩, []⟩

def c5_outrow : JudgeLogTestRow := ⟨1, none, none, none, none, none, none, none⟩

/-- C5 counterexample: a valuer log that mentions test 1 in two rows
yields two rows with test_id 1 — the emitted tests sequence is not
strictly increasing. -/
theorem c5_counterexample :
    transform (fun _ => none) c5_vlog ⟨.ok ⟨[]⟩, []⟩ [] c5_problem =
      .ok { kind := .contestant, tests := [c5_outrow, c5_outrow], subtasks := [],
            compile_log := [], score := 0, is_full := false,
            status := ⟨.rejected, status_codes.PARTIAL_SOLUTION⟩ } ∧
    ¬ List.Pairwise (fun a b => a.test_id < b.test_id) [c5_outrow, c5_outrow] := by
  refine ⟨by rfl, by simp [c5_outrow]⟩

/-- C5 witness: the amended claim at the counterexample input (two
rows, same id): the output is still non-decreasing by test id. -/
theorem c5_sorted_tests_subtasks_witness :
    List.Pairwise (fun a b => a.test_id ≤ b.test_id) [c5_outrow, c5_outrow] ∧
    List.Pairwise (fun a b => a.subtask_id ≤ b.subtask_id)
      ([] : List JudgeLogSubtaskRow) := by
  have hc := c5_sorted_tests_subtasks (fun _ => none) c5_vlog ⟨.ok ⟨[]⟩, []⟩ []
    c5_problem
    { kind := .contestant, tests := [c5_outrow, c5_outrow], subtasks := [],
      compile_log := [], score := 0, is_full := false,
      status := ⟨.rejected, status_codes.PARTIAL_SOLUTION⟩ } (by rfl)
  exact ⟨hc.1, hc.2.1⟩

/-- C4: for every valuer judge log transformed into a persistent judge
log (with per-test execution outcomes keyed by distinct test ids), each
test row's payload field is populated iff the corresponding visibility
bit is set and the underlying value is available: STATUS copies the
valuer status; TEST_DATA base64-encodes the test file into test_stdin;
OUTPUT base64-encodes solution stdout/stderr; ANSWER base64-encodes the
reference answer only if the test has one; RESOURCE_USAGE copies
memory/time from the matching execution outcome; and a test with no
matching execution outcome gets only test_id and (when STATUS is
visible) status, every other field None. -/
theorem c4_visibility (readAsset : FileRef → Option (List Nat))
    (vlog : ValuerJudgeLog) (cr : BuildOutcome)
    (results : List (TestId × ExecOutcome)) (problem : Problem) (jl : JudgeLog)
    (hnd : (results.map Prod.fst).Nodup)
    (h : transform readAsset vlog cr results problem = .ok jl) :
    ∀ r ∈ jl.tests, ∃ item ∈ vlog.tests, r.test_id = item.test_id ∧
      r.status = (if item.components.status then some item.status else none) ∧
      (find_outcome results item.test_id = none →
        r.test_stdin = none ∧ r.test_stdout = none ∧ r.test_stderr = none ∧
        r.test_answer = none ∧ r.time_usage = none ∧ r.memory_usage = none) ∧
      (∀ eo, find_outcome results item.test_id = some eo →
        (item.components.test_data = true →
          ∃ t bytes, problem.tests.get? item.test_id.to_idx = some t ∧
            readAsset t.path = some bytes ∧
            r.test_stdin = some (base64Encode bytes)) ∧
        (item.components.test_data = false → r.test_stdin = none) ∧
        r.test_stdout =
          (if item.components.output then some (base64Encode eo.stdout) else none) ∧
        r.test_stderr =
          (if item.components.output then some (base64Encode eo.stderr) else none) ∧
        (item.components.answer = true →
          ∃ t, problem.tests.get? item.test_id.to_idx = some t ∧
            (∀ ref, t.correct = some ref →
              ∃ bytes, readAsset ref = some bytes ∧
                r.test_answer = some (base64Encode bytes)) ∧
            (t.correct = none → r.test_answer = none)) ∧
        (item.components.answer = false → r.test_answer = none) ∧
        r.memory_usage =
          (if item.components.resource_usage then eo.resource_usage.memory else none) ∧
        r.time_usage =
          (if item.components.resource_usage then eo.resource_usage.time else none)) := by
  intro r hr
  obtain ⟨rows, hrows, htests, -⟩ :=
    transform_ok readAsset vlog cr results problem jl h
  rw [htests] at hr
  have hr2 : r ∈ rows :=
    (List.perm_insertionSort testRowLe rows).mem_iff.mp hr
  obtain ⟨item, hitem, hex⟩ :=
    export_all_mem readAsset problem results vlog.tests rows hrows r hr2
  refine ⟨item, hitem, ?_⟩
  cases hfo : find_outcome results item.test_id with
  | none =>
    rw [hfo] at hex
    have hchar := export_test_none_char readAsset problem _ item r hex
    refine ⟨by simp [hchar], by simp [hchar], fun _ => ?_, fun eo heo => ?_⟩
    · simp [hchar]
    · exact absurd heo (by simp)
  | some eo =>
    rw [hfo] at hex
    have hchar := export_test_some_char readAsset problem results item eo r hnd hfo hex
    refine ⟨hchar.1, hchar.2.1, fun hcon => ?_, fun eo2 heo2 => ?_⟩
    · exact absurd hcon (by simp)
    · injection heo2 with heq
      rw [← heq]
      exact hchar.2.2

def c4_eo : ExecOutcome :=
  ⟨⟨.accepted, status_codes.TEST_PASSED⟩, ⟨some 7, some 9⟩, [104, 105], []⟩

def c4_row : ValuerTestRow :=
  ⟨1, ⟨.accepted, status_codes.TEST_PASSED⟩, ⟨true, false, true, false, true⟩⟩

def c4_vlog : ValuerJudgeLog := ⟨.contestant, [c4_row], [], 100, true⟩

def c4_out : JudgeLog :=
  { kind := .contestant
    tests := [⟨1, some ⟨.accepted, status_codes.TEST_PASSED⟩, none,
      some (base64Encode [104, 105]), some (base64Encode []), none,
      some 9, some 7⟩]
    subtasks := []
    compile_log := []
    score := 100
    is_full := false
    status := ⟨.accepted, status_codes.ACCEPTED⟩ }

/-- C4 witness: a single test with STATUS, OUTPUT and RESOURCE_USAGE
visible. -/
theorem c4_visibility_witness :
    ((([(1, c4_eo)] : List (TestId × ExecOutcome)).map Prod.fst).Nodup) ∧
    (∀ r ∈ c4_out.tests, ∃ item ∈ c4_vlog.tests, r.test_id = item.test_id ∧
      r.status = (if item.components.status then some item.status else none) ∧
      (find_outcome [(1, c4_eo)] item.test_id = none →
        r.test_stdin = none ∧ r.test_stdout = none ∧ r.test_stderr = none ∧
        r.test_answer = none ∧ r.time_usage = none ∧ r.memory_usage = none) ∧
      (∀ eo, find_outcome [(1, c4_eo)] item.test_id = some eo →
        (item.components.test_data = true →
          ∃ t bytes, c5_problem.tests.get? item.test_id.to_idx = some t ∧
            (fun _ => none : FileRef → Option (List Nat)) t.path = some bytes ∧
            r.test_stdin = some (base64Encode bytes)) ∧
        (item.components.test_data = false → r.test_stdin = none) ∧
        r.test_stdout =
          (if item.components.output then some (base64Encode eo.stdout) else none) ∧
        r.test_stderr =
          (if item.components.output then some (base64Encode eo.stderr) else none) ∧
        (item.components.answer = true →
          ∃ t, c5_problem.tests.get? item.test_id.to_idx = some t ∧
            (∀ ref, t.correct = some ref →
              ∃ bytes, (fun _ => none : FileRef → Option (List Nat)) ref = some bytes ∧
                r.test_answer = some (base64Encode bytes)) ∧
            (t.correct = none → r.test_answer = none)) ∧
        (item.components.answer = false → r.test_answer = none) ∧
        r.memory_usage =
          (if item.components.resource_usage then eo.resource_usage.memory else none) ∧
        r.time_usage =
          (if item.components.resource_usage then eo.resource_usage.time else none))) :=
  ⟨by decide,
   c4_visibility (fun _ => none) c4_vlog ⟨.ok ⟨[]⟩, []⟩ [(1, c4_eo)] c5_problem
     c4_out (by decide) (by rfl)⟩

set_option maxRecDepth 4096 in
set_option maxHeartbeats 1600000 in
theorem export_test_panic (readAsset : FileRef → Option (List Nat))
    (problem : Problem) (ru : TestId → Option ResourceUsage)
    (item : ValuerTestRow) (eo : Option ExecOutcome)
    (hex : export_test readAsset problem ru item eo = .error .panicIndex) :
    eo.isSome ∧ (item.components.test_data = true ∨ item.components.answer = true) ∧
      problem.tests.get? item.test_id.to_idx = none := by
  unfold export_test at hex
  iterate 14 (all_goals (try (split at hex)))
  all_goals
    first
      | (refine ⟨by simp, Or.inl (by assumption), by assumption⟩)
      | (refine ⟨by simp, Or.inr (by assumption), by assumption⟩)
      | (exfalso;
         simp_all only [Except.error.injEq, Except.ok.injEq, reduceCtorEq])

theorem export_all_panic (readAsset : FileRef → Option (List Nat))
    (problem : Problem) (results : List (TestId × ExecOutcome)) :
    ∀ items : List ValuerTestRow,
      export_all readAsset problem results items = .error .panicIndex →
      ∃ item ∈ items,
        export_test readAsset problem (resource_usage_by_test results) item
          (find_outcome results item.test_id) = .error .panicIndex
  | [], h => by simp [export_all] at h
  | item :: rest, h => by
    simp only [export_all] at h
    split at h
    · rename_i e hex
      simp only [Except.error.injEq] at h
      rw [h] at hex
      exact ⟨item, by simp, hex⟩
    · rename_i r1 hex1
      split at h
      · rename_i e2 hrest
        simp only [Except.error.injEq] at h
        rw [h] at hrest
        obtain ⟨it, hit, hx⟩ := export_all_panic readAsset problem results rest hrest
        exact ⟨it, by simp [hit], hx⟩
      · exact absurd h (by simp)

theorem transform_panic (readAsset : FileRef → Option (List Nat))
    (vlog : ValuerJudgeLog) (cr : BuildOutcome)
    (results : List (TestId × ExecOutcome)) (problem : Problem)
    (h : transform readAsset vlog cr results problem = .error .panicIndex) :
    export_all readAsset problem results vlog.tests = .error .panicIndex := by
  unfold transform at h
  split at h
  all_goals (
    split at h
    · rename_i e hrows
      simp only [Except.error.injEq] at h
      rw [h] at hrows
      exact hrows
    · exact absurd h (by simp))

def c10_row : ValuerTestRow :=
  ⟨5, ⟨.accepted, status_codes.TEST_PASSED⟩, ⟨false, true, false, false, false⟩⟩

def c10_vlog : ValuerJudgeLog := ⟨.contestant, [c10_row], [], 0, false⟩

/-- C10: the transformer indexes `problem.tests` by the valuer-supplied
test id with no bounds check — it is panic-free exactly under the
precondition that every row with a matching execution outcome and
TEST_DATA or ANSWER visibility refers to an existing test; an
out-of-range id with such visibility panics, while the test executor
guards the same lookup and returns an "unknown test" error instead. -/
theorem c10_unguarded_index :
    (∀ (readAsset : FileRef → Option (List Nat)) (vlog : ValuerJudgeLog)
       (cr : BuildOutcome) (results : List (TestId × ExecOutcome))
       (problem : Problem),
      (∀ item ∈ vlog.tests, (find_outcome results item.test_id).isSome →
        (item.components.test_data = true ∨ item.components.answer = true) →
        item.test_id.to_idx < problem.tests.length) →
      transform readAsset vlog cr results problem ≠ .error .panicIndex) ∧
    transform (fun _ => none) c10_vlog ⟨.ok ⟨[]⟩, []⟩ [(5, c4_eo)] c5_problem =
      .error .panicIndex ∧
    exec_lookup_test c5_problem 5 = .error "unknown test" := by
  refine ⟨?_, by rfl, by rfl⟩
  intro readAsset vlog cr results problem hpre hcon
  obtain ⟨item, hitem, hx⟩ := export_all_panic readAsset problem results vlog.tests
    (transform_panic readAsset vlog cr results problem hcon)
  have hcases := export_test_panic readAsset problem _ item _ hx
  have hlt := hpre item hitem hcases.1 hcases.2.1
  have hge := List.get?_eq_none.mp hcases.2.2
  omega

/-- C10 witness: with every visible row referring to an existing test
(here: no TEST_DATA/ANSWER visibility at all), the transformer cannot
hit the index panic. -/
theorem c10_unguarded_index_witness :
    transform (fun _ => none) c4_vlog ⟨.ok ⟨[]⟩, []⟩ [(1, c4_eo)] c5_problem ≠
      .error .panicIndex :=
  c10_unguarded_index.1 (fun _ => none) c4_vlog ⟨.ok ⟨[]⟩, []⟩ [(1, c4_eo)]
    c5_problem (by decide)

/-- C6: for every invoker response processed by the test executor (the
checker-decision parser is a parameter — exec_test/checker_proto.rs is
not under src/ — so this holds for every parser): a non-zero checker
exit code, a non-UTF-8 decision, or a parse failure each make the
executor return (not error) an outcome with status kind InternalError
and code JUDGE_FAULT, empty stdout/stderr and default resource usage;
otherwise the parsed decision maps Ok → (Accepted, TestPassed),
WrongAnswer → (Rejected, WrongAnswer), PresentationError →
(Rejected, PresentationError), BadChecker → (InternalError, JudgeFault),
with resource usage taken from the solution step. -/
theorem c6_exec_outcomes (parse : List Nat → Except String CheckerOutput)
    (resp : ExecResponse) :
    (resp.checker_result.exit_code ≠ 0 →
      exec_process_response parse resp = make_return_value_for_judge_fault) ∧
    (validUtf8 resp.checker_decision = false →
      exec_process_response parse resp = make_return_value_for_judge_fault) ∧
    (∀ err, parse resp.checker_decision = .error err →
      exec_process_response parse resp = make_return_value_for_judge_fault) ∧
    make_return_value_for_judge_fault =
      { status := ⟨.internalError, status_codes.JUDGE_FAULT⟩
        resource_usage := ⟨none, none⟩, stdout := [], stderr := [] } ∧
    (∀ parsed_out, resp.checker_result.exit_code = 0 →
      validUtf8 resp.checker_decision = true →
      parse resp.checker_decision = .ok parsed_out →
      exec_process_response parse resp =
        { status := map_checker_outcome_to_status parsed_out
          resource_usage := ⟨resp.solution_result.memory, resp.solution_result.cpu_time⟩
          stdout := utf8Lossy resp.solution_stdout
          stderr := utf8Lossy resp.solution_stderr }) ∧
    map_checker_outcome_to_status ⟨.ok⟩ = ⟨.accepted, status_codes.TEST_PASSED⟩ ∧
    map_checker_outcome_to_status ⟨.wrongAnswer⟩ =
      ⟨.rejected, status_codes.WRONG_ANSWER⟩ ∧
    map_checker_outcome_to_status ⟨.presentationError⟩ =
      ⟨.rejected, status_codes.PRESENTATION_ERROR⟩ ∧
    map_checker_outcome_to_status ⟨.badChecker⟩ =
      ⟨.internalError, status_codes.JUDGE_FAULT⟩ := by
  refine ⟨?_, ?_, ?_, rfl, ?_, rfl, rfl, rfl, rfl⟩
  · intro h
    simp [exec_process_response, h]
  · intro h
    unfold exec_process_response
    split
    · rfl
    · simp [h]
  · intro err h
    unfold exec_process_response
    split
    · rfl
    · by_cases hv : validUtf8 resp.checker_decision
      · simp [hv, h]
      · simp [hv]
  · intro parsed_out h0 hv hp
    simp [exec_process_response, h0, hv, hp]

def c6_resp : ExecResponse :=
  ⟨⟨none, none, none, 0⟩, [], [], ⟨none, none, none, 1⟩, []⟩

/-- C6 witness: a checker that exits non-zero yields the JUDGE_FAULT
outcome. -/
theorem c6_exec_outcomes_witness :
    exec_process_response (fun _ => .error "no decision") c6_resp =
      make_return_value_for_judge_fault :=
  (c6_exec_outcomes (fun _ => .error "no decision") c6_resp).1 (by decide)

theorem find_outcome_mem (results : List (TestId × ExecOutcome)) (t : TestId)
    (eo : ExecOutcome) (h : find_outcome results t = some eo) :
    ∃ p ∈ results, p.2 = eo := by
  unfold find_outcome at h
  cases hf : results.find? (fun p => p.1 == t) with
  | none => rw [hf] at h; simp at h
  | some p =>
    rw [hf] at h
    simp only [Option.map, Option.some.injEq] at h
    exact ⟨p, List.mem_of_find?_eq_some hf, h⟩

def c8_resp : ExecResponse :=
  ⟨⟨none, none, none, 0⟩, [255], [], ⟨none, none, none, 0⟩, []⟩

def c8_row : ValuerTestRow :=
  ⟨1, ⟨.accepted, status_codes.TEST_PASSED⟩, ⟨false, false, true, false, false⟩⟩

def c8_vlog : ValuerJudgeLog := ⟨.contestant, [c8_row], [], 0, false⟩

def c8_out : JudgeLog :=
  { kind := .contestant
    tests := [⟨1, none, none, some (base64Encode [239, 191, 189]),
      some (base64Encode []), none, none, none⟩]
    subtasks := []
    compile_log := []
    score := 0
    is_full := false
    status := ⟨.rejected, status_codes.PARTIAL_SOLUTION⟩ }

/-- C8 counterexample: a solution whose stdout is the single non-UTF-8
byte 0xFF.  The executor stores the UTF-8-lossy conversion (the
replacement character EF BF BD), the transformer base64-encodes those
bytes, and decoding yields EF BF BD — not the source byte FF. -/
theorem c8_counterexample :
    (exec_process_response (fun _ => .ok ⟨.ok⟩) c8_resp).stdout = [239, 191, 189] ∧
    transform (fun _ => none) c8_vlog ⟨.ok ⟨[]⟩, []⟩
        [(1, exec_process_response (fun _ => .ok ⟨.ok⟩) c8_resp)] c5_problem =
      .ok c8_out ∧
    c8_out.tests.map (fun r => r.test_stdout) =
      [some (base64Encode [239, 191, 189])] ∧
    base64Decode (base64Encode [239, 191, 189]) = some [239, 191, 189] ∧
    ([239, 191, 189] : List Nat) ≠ [255] := by
  refine ⟨by rfl, by rfl, by rfl, by rfl, by decide⟩

/-- C8 (amended): in every emitted persistent judge log, test_stdin and
test_answer are base64 whose decoding yields exactly the test file's
and reference answer's bytes; test_stdout and test_stderr decode
exactly to the bytes the test executor stored for the matching
execution outcome — which are the UTF-8-lossy conversion of the
solution's raw output, equal to the raw bytes only when that output is
valid UTF-8. -/
theorem c8_base64_roundtrip (readAsset : FileRef → Option (List Nat))
    (vlog : ValuerJudgeLog) (cr : BuildOutcome)
    (results : List (TestId × ExecOutcome)) (problem : Problem) (jl : JudgeLog)
    (hread : ∀ f bytes, readAsset f = some bytes → ∀ b ∈ bytes, b < 256)
    (houts : ∀ p ∈ results,
      (∀ b ∈ p.2.stdout, b < 256) ∧ (∀ b ∈ p.2.stderr, b < 256))
    (hnd : (results.map Prod.fst).Nodup)
    (h : transform readAsset vlog cr results problem = .ok jl) :
    (∀ r ∈ jl.tests,
      (∀ senc, r.test_stdin = some senc →
        ∃ t bytes, problem.tests.get? r.test_id.to_idx = some t ∧
          readAsset t.path = some bytes ∧ base64Decode senc = some bytes) ∧
      (∀ senc, r.test_answer = some senc →
        ∃ t ref bytes, problem.tests.get? r.test_id.to_idx = some t ∧
          t.correct = some ref ∧ readAsset ref = some bytes ∧
          base64Decode senc = some bytes) ∧
      (∀ senc, r.test_stdout = some senc →
        ∃ eo, find_outcome results r.test_id = some eo ∧
          base64Decode senc = some eo.stdout) ∧
      (∀ senc, r.test_stderr = some senc →
        ∃ eo, find_outcome results r.test_id = some eo ∧
          base64Decode senc = some eo.stderr)) ∧
    (∀ parse resp parsed_out, resp.checker_result.exit_code = 0 →
      validUtf8 resp.checker_decision = true →
      parse resp.checker_decision = .ok parsed_out →
      (exec_process_response parse resp).stdout = utf8Lossy resp.solution_stdout ∧
      (validUtf8 resp.solution_stdout = true →
        (exec_process_response parse resp).stdout = resp.solution_stdout)) := by
  constructor
  · intro r hr
    obtain ⟨rows, hrows, htests, -⟩ :=
      transform_ok readAsset vlog cr results problem jl h
    rw [htests] at hr
    obtain ⟨item, hitem, hex⟩ :=
      export_all_mem readAsset problem results vlog.tests rows hrows r
        ((List.perm_insertionSort testRowLe rows).mem_iff.mp hr)
    cases hfo : find_outcome results item.test_id with
    | none =>
      rw [hfo] at hex
      have hchar := export_test_none_char readAsset problem _ item r hex
      refine ⟨?_, ?_, ?_, ?_⟩ <;>
        (intro senc hsenc; rw [hchar] at hsenc; simp at hsenc)
    | some eo =>
      rw [hfo] at hex
      have hchar := export_test_some_char readAsset problem results item eo r hnd hfo hex
      have hid : r.test_id = item.test_id := hchar.1
      refine ⟨?_, ?_, ?_, ?_⟩
      · intro senc hsenc
        by_cases htd : item.components.test_data
        · obtain ⟨t, bytes, hget, hrb, hstdin⟩ := hchar.2.2.1 htd
          rw [hstdin] at hsenc
          injection hsenc with he
          refine ⟨t, bytes, by rw [hid]; exact hget, hrb, ?_⟩
          rw [← he]
          exact base64_roundtrip bytes (hread t.path bytes hrb)
        · rw [hchar.2.2.2.1 (by simpa using htd)] at hsenc
          cases hsenc
      · intro senc hsenc
        by_cases ha : item.components.answer
        · obtain ⟨t, hget, hsome, hnone⟩ := hchar.2.2.2.2.2.2.1 ha
          cases hc : t.correct with
          | none =>
            rw [hnone hc] at hsenc
            cases hsenc
          | some ref =>
            obtain ⟨bytes, hrb, hans⟩ := hsome ref hc
            rw [hans] at hsenc
            injection hsenc with he
            refine ⟨t, ref, bytes, by rw [hid]; exact hget, hc, hrb, ?_⟩
            rw [← he]
            exact base64_roundtrip bytes (hread ref bytes hrb)
        · rw [hchar.2.2.2.2.2.2.2.1 (by simpa using ha)] at hsenc
          cases hsenc
      · intro senc hsenc
        rw [hchar.2.2.2.2.1] at hsenc
        by_cases hout : item.components.output
        · rw [if_pos hout] at hsenc
          injection hsenc with he
          obtain ⟨p, hp, hpe⟩ := find_outcome_mem results item.test_id eo hfo
          refine ⟨eo, by rw [hid]; exact hfo, ?_⟩
          rw [← he]
          exact base64_roundtrip eo.stdout (by rw [← hpe]; exact (houts p hp).1)
        · rw [if_neg hout] at hsenc
          cases hsenc
      · intro senc hsenc
        rw [hchar.2.2.2.2.2.1] at hsenc
        by_cases hout : item.components.output
        · rw [if_pos hout] at hsenc
          injection hsenc with he
          obtain ⟨p, hp, hpe⟩ := find_outcome_mem results item.test_id eo hfo
          refine ⟨eo, by rw [hid]; exact hfo, ?_⟩
          rw [← he]
          exact base64_roundtrip eo.stderr (by rw [← hpe]; exact (houts p hp).2)
        · rw [if_neg hout] at hsenc
          cases hsenc
  · intro parse resp parsed_out h0 hv hp
    constructor
    · simp [exec_process_response, h0, hv, hp]
    · intro hvs
      simp only [exec_process_response, h0, hv, hp]
      simp
      exact utf8Lossy_valid_id _ hvs

/-- C8 witness: the amended claim at the counterexample input — the
executor stores the lossy conversion of the raw stdout. -/
theorem c8_base64_roundtrip_witness :
    (exec_process_response (fun _ => .ok ⟨.ok⟩) c8_resp).stdout =
      utf8Lossy [255] :=
  ((c8_base64_roundtrip (fun _ => none) c8_vlog ⟨.ok ⟨[]⟩, []⟩
      [(1, exec_process_response (fun _ => .ok ⟨.ok⟩) c8_resp)] c5_problem c8_out
      (by simp) (by decide) (by decide) (by rfl)).2
    (fun _ => .ok ⟨.ok⟩) c8_resp ⟨.ok⟩ rfl (by decide) rfl).1

end Judge
